import Mathlib

/-!
Verification of the digital-brain connection pipeline.

Shallow embedding of the core of the repository:
* `pipeline/suggest_connections_digital_brain.py` — the edge merge /
  enrichment / pruning engine (`postprocess_graph`) and graph persistence
  (`save_graph`),
* `pipeline/parses/robust_ai_parser.py` — the robust AI response parsing
  and acceptance filtering (`_parse_ai_json_robust`, `analyze_ai`,
  `reason_ok`, the fallback ladder of `parse_ai_response`),
* `pipeline/brain/validate_suggestions.py` — the graph validator
  (`is_uuid`, `merge_edge`, `validate_graph`),
* `config/text_normalization.py` — `normalize_text`.

Python strings are modelled as Lean `String`/`List Char`; Python string
methods (`strip`, `lower`, regex token scans, word-boundary replacement)
are modelled character-wise over the ASCII and Latin-1 ranges, which
covers every character class the source regexes use.  Python `int`s are
`Int`, Python `float`s that the claims touch are `Rat`, absent values are
`Option`, and Python `dict`s used as insertion-ordered maps are
association lists.
-/

set_option maxRecDepth 10000

namespace DigitalBrain

/-! ## Python string primitives -/

/-- The whitespace characters recognised by Python `str.strip()` /
regex `\s` (restricted to the ASCII range, which the sources use). -/
def isPyWs (c : Char) : Bool :=
  c = ' ' || c = '\t' || c = '\n' || c = '\x0d' || c = '\x0b' || c = '\x0c'

/-- Python `str.lower()`, character-wise, on ASCII and Latin-1. -/
def pyLowerChar (c : Char) : Char :=
  if 'A' ≤ c && c ≤ 'Z' then Char.ofNat (c.toNat + 32)
  else if 0xC0 ≤ c.toNat && c.toNat ≤ 0xDE && c.toNat ≠ 0xD7 then Char.ofNat (c.toNat + 32)
  else c

/-- ASCII letter test. -/
def isAsciiLetter (c : Char) : Bool :=
  ('a' ≤ c && c ≤ 'z') || ('A' ≤ c && c ≤ 'Z')

/-- Latin-1 letter test (`À`–`ÿ` minus `×`, `÷`, plus `ª`, `µ`, `º`). -/
def isLatin1Letter (c : Char) : Bool :=
  (0xC0 ≤ c.toNat && c.toNat ≤ 0xFF && c.toNat ≠ 0xD7 && c.toNat ≠ 0xF7)
  || c.toNat = 0xAA || c.toNat = 0xB5 || c.toNat = 0xBA

/-- Python regex `\w` (word character), on the ASCII/Latin-1 range. -/
def isWordChar (c : Char) : Bool :=
  isAsciiLetter c || isLatin1Letter c || ('0' ≤ c && c ≤ '9') || c = '_'

/-- The character class `[A-Za-zÀ-ÖØ-öø-ÿ']` of `_CONTENT_TOKEN_RE` in
`robust_ai_parser.py`. -/
def isContentTokenChar (c : Char) : Bool :=
  isAsciiLetter c
  || (0xC0 ≤ c.toNat && c.toNat ≤ 0xD6)
  || (0xD8 ≤ c.toNat && c.toNat ≤ 0xF6)
  || (0xF8 ≤ c.toNat && c.toNat ≤ 0xFF)
  || c.toNat = 39

/-- Python `str.strip()` on a character list. -/
def pyStripList (cs : List Char) : List Char :=
  ((cs.dropWhile isPyWs).reverse.dropWhile isPyWs).reverse

/-- Python `str.strip()`. -/
def pyStrip (s : String) : String := ⟨pyStripList s.data⟩

/-- Python `str.lower()`. -/
def pyLower (s : String) : String := ⟨s.data.map pyLowerChar⟩

/-- Maximal runs of characters satisfying `p` (the semantics of
`re.findall` with a single-character-class `+` pattern).
`cur` is the reversed current run, `acc` the finished runs. -/
def runsAux (p : Char → Bool) : List Char → List (List Char) → List Char → List (List Char)
  | cur, acc, [] => if cur = [] then acc else acc ++ [cur.reverse]
  | cur, acc, c :: cs =>
    if p c then runsAux p (c :: cur) acc cs
    else if cur = [] then runsAux p [] acc cs
    else runsAux p [] (acc ++ [cur.reverse]) cs

/-- Maximal runs of characters satisfying `p` in a string. -/
def runs (p : Char → Bool) (s : String) : List (List Char) :=
  runsAux p [] [] s.data

/-- `_tokenize_words` of `robust_ai_parser.py`: finds all
`[A-Za-zÀ-ÖØ-öø-ÿ']+` tokens and lowercases them. -/
def tokenizeWords (s : String) : List String :=
  (runs isContentTokenChar s).map (fun l => ⟨l.map pyLowerChar⟩)

/-- The number of `\w+` tokens of a string — the tokenization used by
`reason_ok` in `suggest_connections_digital_brain.py`
(`re.findall(r"\w+", reason)`). -/
def countWordTokens (s : String) : Nat :=
  (runs isWordChar s).length

/-- Does `needle` occur at the start of `hay` (exact characters)? -/
def startsList : List Char → List Char → Bool
  | [], _ => true
  | _ :: _, [] => false
  | p :: ps, c :: cs => p = c && startsList ps cs

/-- Python `needle in hay` substring containment on character lists. -/
def containsSub (needle : List Char) : List Char → Bool
  | [] => needle.isEmpty
  | c :: cs => startsList needle (c :: cs) || containsSub needle cs

/-- Python `needle in hay` on strings. -/
def strContains (hay needle : String) : Bool :=
  containsSub needle.data hay.data

/-- Lexicographic code-point comparison of character lists (Python `<`
on strings). -/
def charListLt : List Char → List Char → Bool
  | [], [] => false
  | [], _ :: _ => true
  | _ :: _, [] => false
  | a :: as, b :: bs => a < b || (a = b && charListLt as bs)

/-- Python `a < b` on strings (code-point lexicographic order; this is
also what the Lean `String` order denotes, spelled out computably). -/
def strLt (a b : String) : Bool := charListLt a.data b.data

/-- Ordered insertion into a sorted, duplicate-free list of strings;
used to model Python `set`s of strings canonically (Python compares
strings by code points, as the Lean `String` order does). -/
def setInsert (x : String) : List String → List String
  | [] => [x]
  | y :: ys =>
    if x = y then y :: ys
    else if strLt x y then x :: y :: ys
    else y :: setInsert x ys

/-- Canonical (sorted, duplicate-free) set of a list of strings; the
result is what Python `sorted(set(l))` yields. -/
def setOfList (l : List String) : List String :=
  l.foldl (fun acc x => setInsert x acc) []

/-- Union of two canonically represented string sets
(`sorted(set(a) | set(b))`). -/
def setUnion (a b : List String) : List String :=
  b.foldl (fun acc x => setInsert x acc) (setOfList a)

/-- Stable ascending insertion (Python `sorted` on strings). -/
def insAsc (x : String) : List String → List String
  | [] => [x]
  | y :: ys => if strLt x y then x :: y :: ys else y :: insAsc x ys

/-- Python `sorted` on a list of strings (stable, code-point order). -/
def sortStrings (l : List String) : List String :=
  l.foldl (fun acc x => insAsc x acc) []

/-- Python `dict.fromkeys(l)` key order: duplicates removed, first
occurrence kept. -/
def dedupeKeepFirst (l : List String) : List String :=
  l.foldl (fun acc r => if acc.contains r then acc else acc ++ [r]) []

/-- Python `int(round(x))` on a rational: round-half-to-even. -/
def pyRound (x : Rat) : Int :=
  let f := ⌊x⌋
  let frac := x - (f : Rat)
  if frac < 1/2 then f
  else if frac > 1/2 then f + 1
  else if f % 2 = 0 then f else f + 1

/-! ## `config/text_normalization.py` — `normalize_text`

`normalize_text` first applies the `SAFE_REPLACEMENTS` word-boundary,
case-insensitive substitutions, then the `SENTENCE_CASE_TERMS`
sentence-start capitalisations.  Regex matching is against the original
text left to right, non-overlapping, and replacements are not rescanned —
model: a single scan emitting either the original character or the
replacement text while skipping the matched span. -/

/-- Case-insensitive prefix test (`re.IGNORECASE` literal matching). -/
def ciStarts : List Char → List Char → Bool
  | [], _ => true
  | _ :: _, [] => false
  | p :: ps, c :: cs => pyLowerChar p = pyLowerChar c && ciStarts ps cs

/-- Word boundary before the match: previous character absent or not `\w`. -/
def bdBefore : Option Char → Bool
  | none => true
  | some c => !isWordChar c

/-- Word boundary after the match: next character absent or not `\w`. -/
def bdAfter : List Char → Bool
  | [] => true
  | c :: _ => !isWordChar c

/-- One `re.sub(rf"\b{bad}\b", good, s, flags=IGNORECASE)` pass.
`prev` is the original character just before the scan position, `skip`
counts characters still inside an already-replaced span. -/
def replWordAux (bad good : List Char) : Option Char → Nat → List Char → List Char
  | _, _, [] => []
  | _, Nat.succ k, c :: cs => replWordAux bad good (some c) k cs
  | prev, 0, c :: cs =>
    if ciStarts bad (c :: cs) && bdBefore prev && bdAfter ((c :: cs).drop bad.length) then
      good ++ replWordAux bad good (some c) (bad.length - 1) cs
    else
      c :: replWordAux bad good (some c) 0 cs

/-- `SAFE_REPLACEMENTS` of `config/text_normalization.py`, in source order. -/
def safeReplacements : List (String × String) :=
  [("accessability", "accessibility"),
   ("tecnología", "tecnologia"),
   ("asignatura", "assignatura"),
   ("questio", "qüestió"),
   ("violencia", "violència"),
   ("Üso", "Ús"),
   ("Üs", "Ús"),
   ("uso", "ús")]

/-- `_apply_safe_replacements`. -/
def applySafeReplacements (cs : List Char) : List Char :=
  safeReplacements.foldl (fun acc bg => replWordAux bg.1.data bg.2.data none 0 acc) cs

/-- The sentence-final punctuation class `[\.!?…]` (`SENT_PUNCT`). -/
def isSentPunct (c : Char) : Bool :=
  c = '.' || c = '!' || c = '?' || c.toNat = 0x2026

/-- One `_sentence_case_term` substitution pass: the term matches
case-insensitively at the start of the text or right after a
sentence-final punctuation character followed by one whitespace
character, with a word boundary after it; an exact `wanted` match is
left alone, any other casing is replaced by `wanted`.
`p2`/`p1` are the two original characters before the scan position. -/
def sentCaseAux (term wanted : List Char) :
    Option Char → Option Char → Nat → List Char → List Char
  | _, _, _, [] => []
  | p1, _, Nat.succ k, c :: cs => sentCaseAux term wanted p1 (some c) k cs
  | p2, p1, 0, c :: cs =>
    let posOk : Bool :=
      p1 = none ||
        ((match p1 with | some w => isPyWs w | none => false) &&
         (match p2 with | some q => isSentPunct q | none => false))
    if ciStarts term (c :: cs) && posOk && bdAfter ((c :: cs).drop term.length) then
      let matched := (c :: cs).take term.length
      (if matched = wanted then matched else wanted)
        ++ sentCaseAux term wanted p1 (some c) (term.length - 1) cs
    else
      c :: sentCaseAux term wanted p1 (some c) 0 cs

/-- `SENTENCE_CASE_TERMS` of `config/text_normalization.py`, in source
(dict insertion) order. -/
def sentenceCaseTerms : List (String × String) :=
  [("assignatura", "Assignatura"),
   ("solidaritat responsable", "Solidaritat responsable"),
   ("ètica", "Ètica"),
   ("metodologia", "Metodologia"),
   ("metodologies", "Metodologies")]

/-- `normalize_text` of `config/text_normalization.py`. -/
def normalizeText (s : String) : String :=
  if s.data = [] then s
  else
    let step1 := applySafeReplacements s.data
    let step2 := sentenceCaseTerms.foldl
      (fun acc tw => sentCaseAux tw.1.data tw.2.data none none 0 acc) step1
    ⟨step2⟩

/-! ## UUID recognition

`UUID_RE = re.compile(r'^[0-9a-f]{8}-[0-9a-f]{4}-[0-9a-f]{4}-[0-9a-f]{4}-[0-9a-f]{12}$', re.I)`
is shared (textually) by the validator and the robust parser.  With both
anchors, `match`/`search`/`finditer` succeed only when the whole text is
a UUID, optionally followed by a single final newline (the `$` rule). -/

/-- Hexadecimal digit, both cases (the pattern is compiled with `re.I`). -/
def isHexDigit (c : Char) : Bool :=
  ('0' ≤ c && c ≤ '9') || ('a' ≤ c && c ≤ 'f') || ('A' ≤ c && c ≤ 'F')

/-- Does the character list spell a dashed 8-4-4-4-12 UUID? -/
def isUuidList (cs : List Char) : Bool :=
  cs.length = 36 &&
    (cs.enum.all fun ic =>
      if ic.1 = 8 || ic.1 = 13 || ic.1 = 18 || ic.1 = 23 then ic.2 = '-'
      else isHexDigit ic.2)

/-- `bool(UUID_RE.match(x))` / `UUID_RE.search(x)` for the fully anchored
pattern: the whole string is a UUID, allowing one trailing newline. -/
def uuidAnchoredMatch (s : String) : Bool :=
  isUuidList s.data || (s.data.getLast? = some '\n' && isUuidList s.data.dropLast)

/-! ## `pipeline/brain/validate_suggestions.py` -/

namespace Validator

/-- A Python value that is either absent, a single string, or a list of
strings (the shapes `merge_edge` distinguishes for `evidence`/`reasons`). -/
inductive StrField where
  | null : StrField
  | one : String → StrField
  | many : List String → StrField
deriving DecidableEq, Repr

/-- A node record as consumed by `validate_graph` (only `id` is read;
it may be missing from the dict). -/
structure VNode where
  id : Option String
deriving DecidableEq, Repr

/-- An edge record as consumed by `validate_graph` / `merge_edge`. -/
structure VEdge where
  source : Option String
  target : Option String
  similarity : Option Int
  score : Option Rat
  dashes : Bool
  evidence : StrField
  reasons : StrField
deriving DecidableEq, Repr

/-- `is_uuid` of `validate_suggestions.py`: a reserved `tag::` prefix, or
a full match of the anchored UUID pattern; non-strings are invalid. -/
def is_uuid : Option String → Bool
  | none => false
  | some x => startsList "tag::".data x.data || uuidAnchoredMatch x

/-- `merge_edge` of `validate_suggestions.py`: merge two edge records of
the same unordered endpoint pair: maximum similarity and score (with
`or 0` defaulting), union of evidence, order-preserving union of
reasons. -/
def merge_edge (a b : VEdge) : VEdge :=
  let sim :=
    if a.similarity.isSome || b.similarity.isSome then
      some (max (a.similarity.getD 0) (b.similarity.getD 0))
    else a.similarity
  let sc :=
    if a.score.isSome || b.score.isSome then
      some (max (a.score.getD 0) (b.score.getD 0))
    else a.score
  let evContrib : StrField → List String :=
    fun f => match f with
      | StrField.null => []
      | StrField.one s => [s]
      | StrField.many l => l
  let ev := setOfList (evContrib a.evidence ++ evContrib b.evidence)
  let evOut := if ev ≠ [] then StrField.many ev else a.evidence
  let pushReasons : List String → StrField → List String :=
    fun rs f => match f with
      | StrField.null => rs
      | StrField.one s => if s ≠ "" && ¬ rs.contains s then rs ++ [s] else rs
      | StrField.many l =>
        l.foldl (fun rs r => if r ≠ "" && ¬ rs.contains r then rs ++ [r] else rs) rs
  let rs := pushReasons (pushReasons [] a.reasons) b.reasons
  let rsOut := if rs ≠ [] then StrField.many rs else a.reasons
  { a with similarity := sim, score := sc, evidence := evOut, reasons := rsOut }

/-- The statistics record produced by `validate_graph`. -/
structure VStats where
  total_nodes : Nat
  valid_nodes : Nat
  total_edges : Nat
  kept_edges : Nat
  removed_selfloops : Nat
  removed_invalid_ids : Nat
  removed_low_sim : Nat
  dedup_merged : Nat
deriving DecidableEq, Repr

/-- The result of `validate_graph`: the cleaned graph plus statistics. -/
structure VResult where
  nodes : List VNode
  edges : List VEdge
  stats : VStats
deriving DecidableEq, Repr

/-- Update an insertion-ordered association list at `k` (replace in
place, like a Python dict assignment to an existing key). -/
def updAssoc (k : String × String) (v : VEdge) :
    List ((String × String) × VEdge) → List ((String × String) × VEdge)
  | [] => []
  | kv :: rest => if kv.1 = k then (k, v) :: rest else kv :: updAssoc k v rest

/-- Association-list lookup. -/
def lookupAssoc (k : String × String) :
    List ((String × String) × VEdge) → Option VEdge
  | [] => none
  | kv :: rest => if kv.1 = k then some kv.2 else lookupAssoc k rest

/-- `validate_graph` of `validate_suggestions.py` (graph shape): filter
nodes to valid UUIDs, drop edges with invalid / dangling / self-loop
endpoints, derive similarity from `score` when absent, filter by
`min_sim`, normalise fields, and optionally deduplicate by unordered
endpoint pair via `merge_edge`. -/
def validate_graph (min_sim : Int) (dedup : Bool)
    (nodes : List VNode) (edges : List VEdge) : VResult := Id.run do
  let mut validNodes : List VNode := []
  let mut nodeIds : List String := []
  for n in nodes do
    if is_uuid n.id then
      validNodes := validNodes ++ [n]
      nodeIds := nodeIds ++ [n.id.getD ""]
  let mut removedSelf : Nat := 0
  let mut removedInvalid : Nat := 0
  let mut removedLow : Nat := 0
  let mut cleaned : List VEdge := []
  for e in edges do
    if ¬ (is_uuid e.source && is_uuid e.target) then
      removedInvalid := removedInvalid + 1
    else if ¬ (nodeIds.contains (e.source.getD "") && nodeIds.contains (e.target.getD "")) then
      removedInvalid := removedInvalid + 1
    else if e.source = e.target then
      removedSelf := removedSelf + 1
    else
      let sim : Int :=
        match e.similarity with
        | some v => v
        | none =>
          match e.score with
          | some sc => if sc ≤ 1 then pyRound (sc * 100) else pyRound sc
          | none => 0
      if sim < min_sim then
        removedLow := removedLow + 1
      else
        let ev := match e.evidence with
          | StrField.one s => StrField.many [s]
          | other => other
        cleaned := cleaned ++ [{ e with similarity := some sim, evidence := ev }]
  let mut dedupMerged : Nat := 0
  let mut finalEdges : List VEdge := cleaned
  if dedup then
    let mut merged : List ((String × String) × VEdge) := []
    for e in cleaned do
      let s := e.source.getD ""
      let t := e.target.getD ""
      let key := if strLt s t then (s, t) else (t, s)
      match lookupAssoc key merged with
      | some prev =>
        merged := updAssoc key (merge_edge prev e) merged
        dedupMerged := dedupMerged + 1
      | none =>
        merged := merged ++ [(key, e)]
    finalEdges := merged.map Prod.snd
  return { nodes := validNodes, edges := finalEdges,
           stats := { total_nodes := nodes.length, valid_nodes := validNodes.length,
                      total_edges := edges.length, kept_edges := finalEdges.length,
                      removed_selfloops := removedSelf,
                      removed_invalid_ids := removedInvalid,
                      removed_low_sim := removedLow,
                      dedup_merged := dedupMerged } }

end Validator

/-! ## `save_graph` of `suggest_connections_digital_brain.py`

The body (mkdir, write temp file, flush+fsync, atomic rename) is wrapped
in `try`/`except Exception`; the handler calls `log.exception` and the
function then returns `None` — nothing is re-raised.  The filesystem
steps are modelled by an `Except` value describing whether the body ran
to completion or raised. -/

/-- Outcome of a `save_graph` call as seen by its caller. -/
inductive SaveOutcome where
  /-- The body completed and the graph was persisted. -/
  | ok : SaveOutcome
  /-- The body raised; the handler logged the error and `save_graph`
  returned normally. -/
  | loggedAndSwallowed : String → SaveOutcome
  /-- The exception propagated to the caller (what the spec describes;
  the code never produces this). -/
  | raised : String → SaveOutcome
deriving DecidableEq, Repr

/-- `save_graph`: run the write body; on any exception, log it and fall
through (the `except` clause has no `raise`). -/
def save_graph (writeBody : Except String Unit) : SaveOutcome :=
  match writeBody with
  | Except.ok _ => SaveOutcome.ok
  | Except.error e => SaveOutcome.loggedAndSwallowed e

/-! ## `postprocess_graph` of `suggest_connections_digital_brain.py`

The merge / enrichment / pruning engine.  Python `set`s of strings are
modelled canonically as sorted duplicate-free lists; the insertion-ordered
`merged` dict is an association list keyed by the unordered endpoint
pair. -/

namespace Merge

/-- Python `str.casefold()` on our character range: lowercase, with
`ß` expanding to `ss`. -/
def pyCasefoldList (cs : List Char) : List Char :=
  cs.flatMap (fun c => if c.toNat = 0xDF then ['s', 's'] else [pyLowerChar c])

/-- `unicodedata.normalize("NFD", ·)` followed by dropping combining
marks, character-wise on the lowercase Latin-1 range (the only range a
casefolded tag can contain here). -/
def stripAccentChar (c : Char) : Char :=
  let n := c.toNat
  if 0xE0 ≤ n && n ≤ 0xE5 then 'a'
  else if n = 0xE7 then 'c'
  else if 0xE8 ≤ n && n ≤ 0xEB then 'e'
  else if 0xEC ≤ n && n ≤ 0xEF then 'i'
  else if n = 0xF1 then 'n'
  else if 0xF2 ≤ n && n ≤ 0xF6 then 'o'
  else if 0xF9 ≤ n && n ≤ 0xFC then 'u'
  else if n = 0xFD || n = 0xFF then 'y'
  else c

/-- The `_normalize_tag` helper inside `compute_overlap`: strip,
casefold, strip accents.  (Dict-valued tags are modelled by their
`name` string.) -/
def normalizeTagPP (t : String) : String :=
  ⟨(pyCasefoldList (pyStripList t.data)).map stripAccentChar⟩

/-- `compute_overlap`: sorted intersection of the normalized, non-empty
tag names of the two notes. -/
def compute_overlap (aTags bTags : List String) : List String :=
  let normSet := fun (ts : List String) =>
    setOfList (ts.filterMap (fun t =>
      let n := normalizeTagPP t
      if n = "" then none else some n))
  let a := normSet aTags
  let b := normSet bTags
  a.filter (fun x => b.contains x)

/-- `compute_project_overlap`: sorted intersection of the
stripped-and-casefolded project names (no emptiness filter). -/
def compute_project_overlap (aP bP : List String) : List String :=
  let norm := fun (ps : List String) =>
    setOfList (ps.map (fun p => (⟨pyCasefoldList (pyStripList p.data)⟩ : String)))
  let a := norm aP
  let b := norm bP
  a.filter (fun x => b.contains x)

/-- `sort_pair`: the unordered merge key, `tuple(sorted([a, b]))`. -/
def sort_pair (a b : String) : String × String :=
  if strLt b a then (b, a) else (a, b)

/-- `reason_ok` of `suggest_connections_digital_brain.py`: non-empty and
at least `max(5, MIN_REASON_WORDS)` regex `\w+` tokens. -/
def reason_ok (minReasonWords : Nat) (reason : String) : Bool :=
  if reason = "" then false
  else countWordTokens reason ≥ max 5 minReasonWords

/-- Python `==` between a `set` and a `str` (the merge-time comparisons
`ev_set == "ai"` and `ev_set == "explicit"`): values of different types
are never equal, so this is constantly `False`. -/
def pyEqSetStr (_ev : List String) (_s : String) : Bool := false

/-- A note node as consumed by `postprocess_graph` (tags are modelled by
their name strings). -/
structure Node where
  id : String
  title : String
  tags : List String
  projects : List String
deriving DecidableEq, Repr

/-- The `evidence` value of a raw edge dict: absent, a single string, or
a list of strings. -/
inductive EvField where
  | null : EvField
  | one : String → EvField
  | many : List String → EvField
deriving DecidableEq, Repr

/-- A raw candidate edge as consumed by `postprocess_graph`. -/
structure InEdge where
  source : String
  target : String
  evidence : EvField
  dashes : Bool
  via_tags : List String
  similarity : Option Int
  score : Option Rat
  reason : Option String
deriving DecidableEq, Repr

/-- The merged-entry record built up in the `merged` dict. -/
structure Entry where
  source : String
  target : String
  evidence : List String
  reasons : List String
  similarity : Option Int
  score : Option Rat
  tags_overlap : List String
  project_overlap : List String
  directed : Bool
  direction_info : String
deriving DecidableEq, Repr

/-- A finalized merged edge (field set of the emitted edge dicts). -/
structure MergedEdge where
  source : String
  target : String
  evidence : List String
  reasons : List String
  similarity : Option Int
  score : Option Rat
  tags_overlap : List String
  project_overlap : List String
  directed : Bool
  direction_info : String
  dashes : Bool
  arrow : Option String
deriving DecidableEq, Repr

/-- Step 2 of `postprocess_graph`: normalize the `evidence` value into a
set of non-blank, stripped, lowercased strings. -/
def evSetOfField (f : EvField) : List String :=
  let lst := match f with
    | EvField.null => []
    | EvField.one s => [s]
    | EvField.many l => l
  setOfList (lst.filterMap (fun x =>
    if pyStripList x.data = [] then none else some (pyLower (pyStrip x))))

/-- The reason backfill attempted for purely-AI edges: append the
computed tag and project overlaps to the reason. -/
def backfillReason (reason : String) (tagsOv projOv : List String) : String :=
  let extras :=
    (if tagsOv ≠ [] then ["tags comuns: " ++ String.intercalate ", " (tagsOv.take 2)] else [])
    ++ (if projOv ≠ [] then ["projectes comuns: " ++ String.intercalate ", " (projOv.take 1)] else [])
  if extras ≠ [] then
    pyStrip ((reason ++ (if reason ≠ "" then " – " else "") ++ String.intercalate "; " extras))
  else reason

/-- Association-list lookup for the `merged` dict. -/
def lookupEntry (k : String × String) :
    List ((String × String) × Entry) → Option Entry
  | [] => none
  | kv :: rest => if kv.1 = k then some kv.2 else lookupEntry k rest

/-- `merged[key] = entry`: replace in place if the key exists, else
append (Python dict insertion order). -/
def setEntry (k : String × String) (v : Entry) :
    List ((String × String) × Entry) → List ((String × String) × Entry)
  | [] => [(k, v)]
  | kv :: rest => if kv.1 = k then (k, v) :: rest else kv :: setEntry k v rest

/-- Processing of one raw edge by the merge loop of `postprocess_graph`
(steps 2–5 plus the directionality block), acting on the `merged`
association list.  `nnodes` is the (already normalized) node list. -/
def mergeStep (minReasonWords : Nat) (nnodes : List Node)
    (st : List ((String × String) × Entry)) (e : InEdge) :
    List ((String × String) × Entry) :=
  let s := e.source
  let t := e.target
  let nodeIds := nnodes.map Node.id
  if !(nodeIds.contains s && nodeIds.contains t) then st
  else
    let ev0 := evSetOfField e.evidence
    let ev1 := if ev0 = [] then (if e.dashes then ["ai"] else ["explicit"]) else ev0
    let ev_set := if !e.via_tags.isEmpty then setInsert "tags" ev1 else ev1
    let reason0 := pyStrip (normalizeText (e.reason.getD ""))
    let sim := e.similarity
    let node_s := (nnodes.reverse.find? (fun n => n.id = s)).getD ⟨s, "", [], []⟩
    let node_t := (nnodes.reverse.find? (fun n => n.id = t)).getD ⟨t, "", [], []⟩
    let tags_overlap := compute_overlap node_s.tags node_t.tags
    let proj_overlap := compute_project_overlap node_s.projects node_t.projects
    -- The `ev_set == "ai"` comparison compares a set with a string and is
    -- therefore always False; the backfill/drop logic below it is dead code.
    let reason :=
      if pyEqSetStr ev_set "ai" && !reason_ok minReasonWords reason0 then
        backfillReason reason0 tags_overlap proj_overlap
      else reason0
    if pyEqSetStr ev_set "ai" && !reason_ok minReasonWords reason0 &&
        !reason_ok minReasonWords reason then st
    else
      let key := sort_pair s t
      let entry0 : Entry :=
        match lookupEntry key st with
        | none =>
          { source := s, target := t, evidence := ev_set,
            reasons := if reason ≠ "" then [reason] else [],
            similarity :=
              match sim with
              | some v => some v
              | none => if pyEqSetStr ev_set "explicit" then some 100 else none,
            score := e.score,
            tags_overlap := tags_overlap, project_overlap := proj_overlap,
            directed := false, direction_info := "undirected" }
        | some entry =>
          let ev := setUnion entry.evidence ev_set
          let rs := if reason ≠ "" then entry.reasons ++ [reason] else entry.reasons
          let sim2 :=
            match sim with
            | some v =>
              (match entry.similarity with
               | none => some v
               | some old => if v > old then some v else some old)
            | none =>
              if pyEqSetStr ev_set "explicit" then
                match entry.similarity with
                | none => some 100
                | some old => if old < 100 then some 100 else some old
              else entry.similarity
          let sc2 :=
            match e.score with
            | some v =>
              (match entry.score with
               | none => some v
               | some old => if v > old then some v else some old)
            | none => entry.score
          { entry with
            evidence := ev, reasons := rs, similarity := sim2, score := sc2,
            tags_overlap := setUnion entry.tags_overlap tags_overlap,
            project_overlap := setUnion entry.project_overlap proj_overlap }
      let rlow := entry0.reasons.map pyLower
      let dir : Bool × String :=
        if entry0.evidence.contains "explicit" then
          if rlow.any (fun r => strContains r "enllaça a") then (true, "source_to_target")
          else if rlow.any (fun r =>
              strContains r "enllaçat per" || strContains r "referenciat per") then
            (true, "target_to_source")
          else (false, "undirected")
        else (false, "undirected")
      setEntry key { entry0 with directed := dir.1, direction_info := dir.2 } st

/-- The whole merge loop: a single pass over the raw edges. -/
def mergePass (minReasonWords : Nat) (nnodes : List Node) (edges : List InEdge) :
    List ((String × String) × Entry) :=
  edges.foldl (mergeStep minReasonWords nnodes) []

/-- Step 6 of `postprocess_graph`: finalize one merged entry (sorted
evidence, dashed iff purely AI, deduplicated non-blank normalized
reasons, default reason for explicit edges, arrow). -/
def finalizeEntry (ent : Entry) : MergedEdge :=
  let ev := sortStrings ent.evidence
  let dashes := ev = ["ai"]
  let rs1 := (dedupeKeepFirst (ent.reasons.map normalizeText)).filter (fun r => r ≠ "")
  let rs := if rs1 = [] && ev.contains "explicit" then
    ["Explicit link between the two notes"] else rs1
  { source := ent.source, target := ent.target, evidence := ev, reasons := rs,
    similarity := ent.similarity, score := ent.score,
    tags_overlap := ent.tags_overlap, project_overlap := ent.project_overlap,
    directed := ent.directed, direction_info := ent.direction_info,
    dashes := dashes, arrow := if ent.directed then some "end" else none }

/-- The pruning sort key `(score_of(e), e["source"], e["target"])`
(`score_of` maps a missing similarity to `-1`). -/
def edgeKey (e : MergedEdge) : Int × String × String :=
  ((match e.similarity with | none => -1 | some s => s), e.source, e.target)

/-- Strict lexicographic order on the sort keys (Python tuple `<`). -/
def keyLt (k1 k2 : Int × String × String) : Bool :=
  k1.1 < k2.1 ||
    (k1.1 = k2.1 && (strLt k1.2.1 k2.2.1 || (k1.2.1 = k2.2.1 && strLt k1.2.2 k2.2.2)))

/-- Stable descending insertion: the new edge goes after every edge with
a key that is not strictly smaller. -/
def insDesc (e : MergedEdge) : List MergedEdge → List MergedEdge
  | [] => [e]
  | x :: xs => if keyLt (edgeKey x) (edgeKey e) then e :: x :: xs else x :: insDesc e xs

/-- `sorted(prelim, key=..., reverse=True)` (stable). -/
def sortDesc (l : List MergedEdge) : List MergedEdge :=
  l.foldl (fun acc e => insDesc e acc) []

/-- `keep_edge`: with a configured minimum, keep edges whose similarity
is absent or at least the minimum. -/
def keepEdge (metaMin : Option Int) (e : MergedEdge) : Bool :=
  match metaMin with
  | none => true
  | some m => match e.similarity with | none => true | some s => s ≥ m

/-- Bump a node's edge counter (`cap_count[x] = cap_count.get(x, 0) + 1`). -/
def bump (x : String) (counts : String → Nat) : String → Nat :=
  fun v => if v = x then counts x + 1 else counts v

/-- The greedy top-K loop: keep an edge iff at least one of its two
endpoints is still under the cap, then increment both endpoint counters
(sequentially, as the two dict assignments do). -/
def greedyTopK (K : Int) : (String → Nat) → List MergedEdge → List MergedEdge
  | _, [] => []
  | counts, e :: rest =>
    let p := sort_pair e.source e.target
    if (counts p.1 : Int) < K || (counts p.2 : Int) < K then
      e :: greedyTopK K (bump p.2 (bump p.1 counts)) rest
    else greedyTopK K counts rest

/-- Step 7 of `postprocess_graph`: prune by minimum similarity and then
by top-K per node; skipped entirely when neither parameter is set. -/
def prune (metaMin metaTopk : Option Int) (edges : List MergedEdge) : List MergedEdge :=
  if metaMin = none && metaTopk = none then edges
  else
    let prelim := edges.filter (keepEdge metaMin)
    match metaTopk with
    | none => prelim
    | some K => if K ≤ 0 then prelim else greedyTopK K (fun _ => 0) (sortDesc prelim)

/-- Step 1 of `postprocess_graph`: normalize a node's title and project
names in place. -/
def normalizeNode (n : Node) : Node :=
  { n with title := normalizeText n.title, projects := n.projects.map normalizeText }

/-- The graph produced by `postprocess_graph`. -/
structure PPGraph where
  nodes : List Node
  edges : List MergedEdge
deriving DecidableEq, Repr

/-- `postprocess_graph`: normalize nodes, merge all raw edges by
unordered endpoint pair, finalize each merged record, and prune.
`minReasonWords` is the `MIN_REASON_WORDS` configuration value;
`metaMin`/`metaTopk` are `_meta.min_similarity_kept` /
`_meta.topk_per_node` (absent when the graph carries no `_meta`). -/
def postprocess_graph (minReasonWords : Nat) (metaMin metaTopk : Option Int)
    (nodes : List Node) (edges : List InEdge) : PPGraph :=
  let nnodes := nodes.map normalizeNode
  let fin := (mergePass minReasonWords nnodes edges).map (fun kv => finalizeEntry kv.2)
  { nodes := nnodes, edges := prune metaMin metaTopk fin }

/-- Re-reading a finalized merged edge as a raw edge dict, exactly as a
second `postprocess_graph` pass would: the dict has `evidence`, `dashes`,
`similarity` and `score` keys but no `reason` and no `via_tags` key. -/
def mergedToInput (e : MergedEdge) : InEdge :=
  { source := e.source, target := e.target, evidence := EvField.many e.evidence,
    dashes := e.dashes, via_tags := [], similarity := e.similarity,
    score := e.score, reason := none }

/-- The unordered endpoint pair of a merged edge. -/
def pairOf (e : MergedEdge) : String × String := sort_pair e.source e.target

/-- The fields of a merged edge that a second `postprocess_graph` pass
preserves (everything except the reason-derived fields `reasons`,
`directed`, `direction_info`, `arrow`, and the `project_overlap` list
that is recomputed from re-normalized project names). -/
def projMerged (e : MergedEdge) :
    String × String × List String × Option Int × Option Rat × Bool × List String :=
  (e.source, e.target, e.evidence, e.similarity, e.score, e.dashes, e.tags_overlap)

/-- A list of edges is self-admissible for the greedy top-K loop from
counter state `counts`: processed in order, every edge passes the
either-endpoint capacity check. -/
def selfAdm (K : Int) : (String → Nat) → List MergedEdge → Prop
  | _, [] => True
  | counts, e :: rest =>
    ((counts (pairOf e).1 : Int) < K ∨ ((counts (pairOf e).2 : Int) < K)) ∧
      selfAdm K (bump (pairOf e).2 (bump (pairOf e).1 counts)) rest

end Merge

/-! ## `pipeline/parses/robust_ai_parser.py` -/

namespace Parser

mutual

/-- `re.sub(r"\s+", " ", s)`: collapse every whitespace run to one space. -/
def collapseWs : List Char → List Char
  | [] => []
  | c :: cs => if isPyWs c then ' ' :: collapseSkip cs else c :: collapseWs cs

/-- Inside a whitespace run already emitted as one space. -/
def collapseSkip : List Char → List Char
  | [] => []
  | c :: cs => if isPyWs c then collapseSkip cs else c :: collapseWs cs

end

/-- `_norm_reason`: strip, then collapse internal whitespace runs. -/
def norm_reason (s : String) : String := ⟨collapseWs (pyStripList s.data)⟩

/-- `_strip_id`: remove a leading run of `[`/`(`/whitespace and a
trailing run of `]`/`)`/whitespace from the stripped id. -/
def strip_id (raw : String) : String :=
  if raw = "" then ""
  else
    let lead := fun c => c = '[' || c = '(' || isPyWs c
    let trail := fun c => c = ']' || c = ')' || isPyWs c
    let st := (pyStrip raw).data
    ⟨((st.dropWhile lead).reverse.dropWhile trail).reverse⟩

/-- `reason_ok` of `robust_ai_parser.py`: total `[A-Za-zÀ-ÖØ-öø-ÿ']+`
token count within `[MIN_REASON_WORDS, MAX_REASON_WORDS]`, and at least
`MIN_CONTENT_WORDS` tokens that are not stopwords and have length ≥ 3. -/
def reason_ok (minW maxW minC : Nat) (stops : List String) (reason : String) : Bool :=
  if reason = "" then false
  else
    let tokens := tokenizeWords reason
    if tokens.length < minW || tokens.length > maxW then false
    else (tokens.filter (fun t => !stops.contains t && t.length ≥ 3)).length ≥ minC

/-- A JSON value, as produced by `json.loads` on the response text
(numbers are restricted to integers — the only numerals the claims
exercise). -/
inductive Json where
  | null : Json
  | str : String → Json
  | num : Int → Json
  | arr : List Json → Json
  | obj : List (String × Json) → Json

/-- Python truthiness of a JSON value. -/
def jTruthy : Json → Bool
  | Json.null => false
  | Json.str s => s ≠ ""
  | Json.num n => n ≠ 0
  | Json.arr xs => !xs.isEmpty
  | Json.obj fs => !fs.isEmpty

/-- Key presence/lookup in a JSON object (`k in d` / `d[k]`). -/
def jGet (fields : List (String × Json)) (k : String) : Option Json :=
  match fields with
  | [] => none
  | kv :: rest => if kv.1 = k then some kv.2 else jGet rest k

/-- Python `a or b` over possibly-missing JSON values (`d.get(x) or
d.get(y)`): a missing key yields `None`, and falsy values fall through. -/
def pyOr (a b : Option Json) : Option Json :=
  match a with
  | some v => if jTruthy v then some v else b
  | none => b

/-- Parse an optionally signed integer literal (the subset of Python
`float(·)` on strings that the pipeline's numeric strings use). -/
def parseIntStr (s : String) : Option Int :=
  let cs := s.data
  let core : List Char → Option Int := fun ds =>
    if ds = [] || ¬ ds.all (fun c => '0' ≤ c && c ≤ '9') then none
    else some (ds.foldl (fun acc c => acc * 10 + ((c.toNat : Int) - 48)) 0)
  match cs with
  | '-' :: rest => (core rest).map (fun n => -n)
  | '+' :: rest => core rest
  | _ => core cs

/-- `_coerce_int_0_100`: coerce to an integer clamping into `[0, 100]`;
strings are stripped and may carry a trailing `%`; non-numeric values
give `None`. -/
def coerceInt0100 : Option Json → Option Int
  | some (Json.num n) => some (max 0 (min 100 n))
  | some (Json.str s) =>
    let t := pyStrip s
    let t2 : String := ⟨(t.data.reverse.dropWhile (fun c => c = '%')).reverse⟩
    match parseIntStr t2 with
    | some n => some (max 0 (min 100 n))
    | none => none
  | _ => none

/-- A normalized connection item `{'id', 'similarity', 'reason'}`. -/
structure Item where
  id : String
  similarity : Int
  reason : String
deriving DecidableEq, Repr

/-- `_push` inside `_extract_connections`: extract id (falling back to
`uuid`), coerce the similarity (falling back to `score`, with Python
`or`-falsiness), normalize the reason (falling back to `because` /
`rationale`); drop the item when the id is blank or the similarity does
not coerce.  (A non-string truthy id would raise in Python and is
outside the modelled scope.) -/
def pushItem (d : List (String × Json)) : Option Item :=
  let idStr :=
    match pyOr (jGet d "id") (jGet d "uuid") with
    | some (Json.str s) => pyStrip s
    | _ => ""
  let sim := coerceInt0100 (pyOr (jGet d "similarity") (jGet d "score"))
  let reason :=
    match pyOr (pyOr (jGet d "reason") (jGet d "because")) (jGet d "rationale") with
    | some (Json.str s) => norm_reason s
    | _ => norm_reason ""
  match sim with
  | none => none
  | some sv => if idStr = "" then none else some ⟨idStr, sv, reason⟩

/-- `_collect_from_list`: push every dict element of a list. -/
def collectList (xs : List Json) : List Item :=
  xs.filterMap (fun el => match el with | Json.obj d => pushItem d | _ => none)

/-- The direct envelope keys probed by `_extract_connections` (2a). -/
def envelopeKeys : List String :=
  ["connections", "connection", "conceptual_connections", "results", "items", "data", "result"]

/-- The nested envelope keys probed one level down (2b). -/
def innerKeys : List String :=
  ["connections", "conceptual_connections", "results", "items", "data"]

/-- Probe the nested envelope keys for a list value. -/
def findInnerList (inner : List (String × Json)) : List String → Option (List Json)
  | [] => none
  | k :: ks =>
    match jGet inner k with
    | some (Json.arr xs) => some xs
    | _ => findInnerList inner ks

/-- Probe the direct envelope keys (2a/2b): a list value is collected
immediately (even when it yields nothing); a dict value is searched one
level deeper; otherwise the next key is tried. -/
def extractEnvelope (d : List (String × Json)) : List String → Option (List Item)
  | [] => none
  | k :: ks =>
    match jGet d k with
    | some (Json.arr xs) => some (collectList xs)
    | some (Json.obj inner) =>
      match findInnerList inner innerKeys with
      | some xs => some (collectList xs)
      | none => extractEnvelope d ks
    | _ => extractEnvelope d ks

/-- `_extract_connections`: normalize a parsed JSON document into a list
of `{'id','similarity','reason'}` items (list, envelope, unitary object,
and UUID-keyed dict shapes). -/
def extract_connections : Json → List Item
  | Json.arr xs => collectList xs
  | Json.obj d =>
    match extractEnvelope d envelopeKeys with
    | some items => items
    | none =>
      if (jGet d "id").isSome && ((jGet d "similarity").isSome || (jGet d "score").isSome) then
        (pushItem d).toList
      else
        d.filterMap (fun kv =>
          match kv.2 with
          | Json.obj v =>
            if (jGet v "similarity").isSome || (jGet v "reason").isSome
                || (jGet v "score").isSome then
              pushItem [("id", Json.str kv.1),
                        ("similarity", (jGet v "similarity").getD
                          ((jGet v "score").getD Json.null)),
                        ("reason", (jGet v "reason").getD Json.null)]
            else none
          | _ => none)
  | _ => []

/-- Models `_parse_ai_json_robust` on a response text that is one
well-formed JSON document, so that strategy 1 (`json.loads` of the whole
text) succeeds and yields `data`.  For the claim's single-item array
shape the later regex strategies re-parse sub-documents of the same text
and extract nothing further, so the function's value is exactly
`_extract_connections(data)` (possibly empty). -/
def parse_ai_json_robust_wf (data : Json) : List Item :=
  extract_connections data

/-- An accepted connection of the primary path of `analyze_ai`
(`{"id", "score", "reason"}` — the similarity integer is stored under
the `score` key). -/
structure OutConn where
  id : String
  score : Int
  reason : String
deriving DecidableEq, Repr

/-- The per-item acceptance filter of `analyze_ai`'s primary path:
strip the id and require it among the pending candidate ids, coerce the
similarity into `[0,100]` and require it at least `MIN_SIM`, normalize
the reason and require `reason_ok`. -/
def analyzeFilter (minSim : Int) (minW maxW minC : Nat) (stops : List String)
    (validIds : List String) (items : List Item) : List OutConn :=
  items.filterMap (fun it =>
    let i2 := strip_id (pyStrip it.id)
    if i2 = "" || !validIds.contains i2 then none
    else
      match coerceInt0100 (some (Json.num it.similarity)) with
      | none => none
      | some sim =>
        if sim < minSim then none
        else
          let reason := norm_reason it.reason
          if !reason_ok minW maxW minC stops reason then none
          else some ⟨i2, sim, reason⟩)

/-- A candidate note (the `valid_nodes` entries of
`RobustAIResponseParser`). -/
structure Cand where
  id : String
  titulo : String
deriving DecidableEq, Repr

mutual

/-- `re.sub(r"[-\s]+", "-", s)`: collapse dash/whitespace runs to one dash. -/
def collapseDashRuns : List Char → List Char
  | [] => []
  | c :: cs =>
    if c = '-' || isPyWs c then '-' :: dashSkip cs else c :: collapseDashRuns cs

/-- Inside a dash/whitespace run already emitted as one dash. -/
def dashSkip : List Char → List Char
  | [] => []
  | c :: cs => if c = '-' || isPyWs c then dashSkip cs else c :: collapseDashRuns cs

end

/-- Build a Python dict from `(key, value)` insertions: first insertion
fixes the position of a key, later insertions replace its value. -/
def dedupeAssoc (pairs : List (String × String)) : List (String × String) :=
  pairs.foldl (fun acc kv =>
    if acc.any (fun x => x.1 = kv.1) then
      acc.map (fun x => if x.1 = kv.1 then (x.1, kv.2) else x)
    else acc ++ [kv]) []

/-- `_to_slug`: lowercase, fold the listed accented vowels/consonants,
drop everything but word characters, whitespace and dashes, collapse
dash/whitespace runs to one dash, and trim dashes. -/
def toSlug (text : String) : String :=
  let lowered := text.data.map pyLowerChar
  let folded := lowered.map (fun c =>
    let n := c.toNat
    if n = 0xE0 || n = 0xE1 || n = 0xE4 || n = 0xE2 then 'a'
    else if n = 0xE8 || n = 0xE9 || n = 0xEB || n = 0xEA then 'e'
    else if n = 0xEC || n = 0xED || n = 0xEF || n = 0xEE then 'i'
    else if n = 0xF2 || n = 0xF3 || n = 0xF6 || n = 0xF4 then 'o'
    else if n = 0xF9 || n = 0xFA || n = 0xFC || n = 0xFB then 'u'
    else if n = 0xF1 then 'n'
    else if n = 0xE7 then 'c'
    else c)
  let kept := folded.filter (fun c => isWordChar c || isPyWs c || c = '-')
  let dashed := collapseDashRuns kept
  ⟨(dashed.dropWhile (fun c => c = '-')).reverse.dropWhile (fun c => c = '-') |>.reverse⟩

/-- The first three whitespace-separated words of a string, joined by
single spaces (`' '.join(s.split()[:3])`). -/
def firstThreeWords (s : String) : String :=
  String.intercalate " " (((runs (fun c => !isPyWs c) s).map
    (fun l => (⟨l⟩ : String))).take 3)

/-- Last-wins dictionary built from `(key, value)` insertions. -/
def dictLookup (pairs : List (String × String)) (k : String) : Option String :=
  (pairs.reverse.find? (fun kv => kv.1 = k)).map Prod.snd

/-- The exact-title index `title_to_id` (insertion order kept for the
relaxed containment scan). -/
def titleToId (cands : List Cand) : List (String × String) :=
  cands.filterMap (fun c =>
    let t := pyStrip c.titulo
    if t = "" then none else some (pyLower t, c.id))

/-- The slug index `slug_to_id`. -/
def slugToId (cands : List Cand) : List (String × String) :=
  cands.filterMap (fun c =>
    let t := pyStrip c.titulo
    if t = "" then none else some (toSlug t, c.id))

/-- The first-three-words index `partial_to_id`. -/
def partialToId (cands : List Cand) : List (String × String) :=
  cands.filterMap (fun c =>
    let t := pyStrip c.titulo
    if t = "" then none
    else
      let key := firstThreeWords (pyLower t)
      if key = "" then none else some (key, c.id))

/-- The container characters stripped by `_resolve_id`
(`"[](){}<>"`, written by code point to keep braces out of literals). -/
def containerChars : List Char :=
  ['[', ']', '(', ')', '<', '>', Char.ofNat 123, Char.ofNat 125]

/-- The character cleanup of `_resolve_id`: strip, strip container
characters, unify dashes, drop zero-width/BOM characters, turn NBSP
into a space, strip again.  (NFKC is the identity on this range.) -/
def cleanIdValue (value : String) : String :=
  let v1 := (pyStripList value.data).dropWhile (fun c => containerChars.contains c)
  let v2 := (v1.reverse.dropWhile (fun c => containerChars.contains c)).reverse
  let v3 := v2.filterMap (fun c =>
    let n := c.toNat
    if n = 0x2013 || n = 0x2014 || n = 0x2212 then some '-'
    else if n = 0x200B || n = 0xFEFF then none
    else if n = 0xA0 then some ' '
    else some c)
  ⟨pyStripList v3⟩

/-- `_resolve_id`: clean the value; an anchored-UUID match resolves only
to a known candidate id; otherwise try exact title, slug, first-three-
words, and finally relaxed substring containment against each title in
index order. -/
def resolveId (cands : List Cand) (value : String) : Option String :=
  if value = "" then none
  else
    let vs := cleanIdValue value
    if uuidAnchoredMatch vs then
      let uidData := if isUuidList vs.data then vs.data else vs.data.dropLast
      let uid : String := ⟨uidData.map pyLowerChar⟩
      if cands.any (fun c => c.id = uid) then some uid else none
    else
      let vLower := pyLower vs
      match dictLookup (titleToId cands) vLower with
      | some nid => some nid
      | none =>
        match dictLookup (slugToId cands) (toSlug vLower) with
        | some nid => some nid
        | none =>
          let key := firstThreeWords vLower
          match (if key ≠ "" then dictLookup (partialToId cands) key else none) with
          | some nid => some nid
          | none =>
            ((dedupeAssoc (titleToId cands)).find? (fun kv =>
              strContains kv.1 vLower || strContains vLower kv.1)).map Prod.snd

/-- A connection dict produced by `parse_ai_response` (fallback entries
carry no `similarity` key). -/
structure FConn where
  id : String
  titulo : String
  score : Rat
  reason : String
  similarity : Option Int
  metodo : String
deriving DecidableEq, Repr

/-- The fixed reason of the bare-UUID fallback. -/
def fallbackReasonUuid : String := "fallback: UUID present in response (no JSON)"

/-- The fixed reason of the title-substring fallback. -/
def fallbackReasonTitle : String := "fallback: title detected in response (no JSON)"

/-- The bare-UUID fallback scan: the compiled UUID pattern is anchored
on both sides, so `finditer` over the whole response matches only when
the entire response text is one UUID (up to one trailing newline). -/
def uuidFallbackConns (cands : List Cand) (text : String) : List FConn :=
  let uuids : List String :=
    if isUuidList text.data then [text]
    else if text.data.getLast? = some '\n' && isUuidList text.data.dropLast then
      [⟨text.data.dropLast⟩]
    else []
  uuids.filterMap (fun uid =>
    match cands.find? (fun c => c.id = uid) with
    | none => none
    | some c =>
      let titulo := if c.titulo = "" then "[external] " ++ uid else c.titulo
      some { id := uid, titulo := titulo, score := (1 : Rat)/2,
             reason := fallbackReasonUuid, similarity := none, metodo := "ia-fallback" })

/-- The exact-lowercase-title fallback scan over the response text. -/
def titleFallbackConns (cands : List Cand) (text : String) : List FConn :=
  let low := pyLower text
  (dedupeAssoc (titleToId cands)).filterMap (fun kv =>
    if kv.1 ≠ "" && strContains low kv.1 then
      match cands.find? (fun c => c.id = kv.2) with
      | some c =>
        some { id := kv.2, titulo := c.titulo, score := (2 : Rat)/5,
               reason := fallbackReasonTitle, similarity := none, metodo := "ia-fallback" }
      | none => none
    else none)

/-- Python iteration over a JSON value (`for it in candidates`): lists
iterate elements, dicts iterate keys, strings iterate characters. -/
def iterableOf : Json → List Json
  | Json.arr xs => xs
  | Json.obj fs => fs.map (fun kv => Json.str kv.1)
  | Json.str s => s.data.map (fun c => Json.str ⟨[c]⟩)
  | _ => []

/-- Structure normalization of `parse_ai_response`: unwrap the
`conexiones`/`connections`/`suggestions`/`results` envelopes, else treat
a dict as a single candidate and a list as the candidate list. -/
def candidatesOf (data : Json) : List Json :=
  match data with
  | Json.obj d =>
    (match jGet d "conexiones" with
     | some v => iterableOf v
     | none =>
       match jGet d "connections" with
       | some v => iterableOf v
       | none =>
         match jGet d "suggestions" with
         | some v => iterableOf v
         | none =>
           match jGet d "results" with
           | some v => iterableOf v
           | none => [Json.obj d])
  | Json.arr xs => xs
  | _ => []

/-- Batch normalization of `parse_ai_response`: an item whose `id` is a
list is expanded into one item per id, broadcasting scalar
similarity/reason values, with out-of-range similarities becoming `None`
and out-of-range reasons becoming `""`. -/
def batchExpand (candidates : List Json) : List Json :=
  candidates.flatMap (fun it =>
    match it with
    | Json.obj d =>
      (match jGet d "id" with
       | some (Json.arr ids) =>
         let sims : List Json :=
           match jGet d "similarity" with
           | some (Json.arr l) => l
           | some v => List.replicate ids.length v
           | none => List.replicate ids.length Json.null
         let reas : List Json :=
           match jGet d "reason" with
           | some (Json.arr l) => l
           | some v => List.replicate ids.length v
           | none => List.replicate ids.length Json.null
         (List.range ids.length).map (fun i =>
           Json.obj [("id", ids.getD i Json.null),
                     ("similarity", sims.getD i Json.null),
                     ("reason", reas.getD i (Json.str ""))])
       | _ => [it])
    | _ => [it])

/-- The id fields probed by the `parse_ai_response` item loop. -/
def idFields : List String :=
  ["id", "target_id", "node_id", "page_id", "titulo", "title", "name"]

/-- The score fields probed by the `parse_ai_response` item loop. -/
def scoreFields : List String :=
  ["similitud", "score", "similarity", "confidence"]

/-- The reason fields probed by the `parse_ai_response` item loop. -/
def reasonFields : List String :=
  ["razon", "reason", "explanation", "why", "motivo"]

/-- Try each id field in order until `_resolve_id` succeeds
(non-string values never resolve). -/
def resolveFromItem (cands : List Cand) (d : List (String × Json)) : Option String :=
  idFields.foldl (fun acc f =>
    match acc with
    | some r => some r
    | none =>
      match jGet d f with
      | some (Json.str v) => resolveId cands v
      | _ => none) none

/-- Python `float(·)` on the JSON values the pipeline feeds it
(integers, and integral numeric strings); anything else raises and is
handled by the source's `except: pass`. -/
def jToRat : Json → Option Rat
  | Json.num n => some (n : Rat)
  | Json.str s => (parseIntStr (pyStrip s)).map (fun n => (n : Rat))
  | _ => none

/-- Python `round(x, 4)`. -/
def roundRat4 (x : Rat) : Rat := ((pyRound (x * 10000) : Int) : Rat) / 10000

/-- The score/similarity normalization of the `parse_ai_response` item
loop: first convertible score field wins; values above 1 are read as
0–100 similarities, values at most 1 as 0–1 scores. -/
def scoreOfItem (d : List (String × Json)) : Rat × Option Int :=
  let found := scoreFields.foldl (fun acc f =>
    match acc with
    | some r => some r
    | none =>
      match jGet d f with
      | some v =>
        (match jToRat v with
         | some s =>
           if s > 1 then some ((s / 100 : Rat), some (pyRound s))
           else some (s, some (pyRound (s * 100)))
         | none => none)
      | none => none) none
  found.getD ((1 : Rat)/2, none)

/-- Python `str(·)` on the JSON values the pipeline's reason fields
carry. -/
def jToStrPy : Json → String
  | Json.str s => s
  | Json.num n => toString n
  | Json.null => "None"
  | _ => ""

/-- The reason extraction of the `parse_ai_response` item loop: first
present reason field, stripped; blank reasons become the default
`"semantic match (AI)"`, others have whitespace runs collapsed. -/
def reasonOfItem (d : List (String × Json)) : String :=
  let raw := reasonFields.foldl (fun acc f =>
    match acc with
    | some r => some r
    | none =>
      match jGet d f with
      | some v => some (pyStrip (jToStrPy v))
      | none => none) none
  let r0 := raw.getD ""
  if r0 = "" then "semantic match (AI)"
  else ⟨pyStripList (collapseWs r0.data)⟩

/-- One candidate item of the `parse_ai_response` main loop: resolve the
id, normalize score/similarity, validate the reason, apply the `MIN_SIM`
threshold, and emit the connection dict. -/
def processItem (minSim : Int) (minW maxW minC : Nat) (stops : List String)
    (cands : List Cand) (it : Json) : Option FConn :=
  match it with
  | Json.obj d =>
    (match resolveFromItem cands d with
     | none => none
     | some rid =>
       if !cands.any (fun c => c.id = rid) then none
       else
         let sr := scoreOfItem d
         let reason := reasonOfItem d
         if !reason_ok minW maxW minC stops reason then none
         else if (match sr.2 with | some r => decide (r < minSim) | none => false) then none
         else
           let simOut := match sr.2 with | some r => r | none => pyRound (sr.1 * 100)
           some { id := rid,
                  titulo := ((cands.reverse.find? (fun c => c.id = rid)).map Cand.titulo).getD "",
                  score := roundRat4 sr.1, reason := reason,
                  similarity := some simOut, metodo := "ia" })
  | _ => none

/-- `parse_ai_response`, with the extracted JSON passed in as `data`
(`_extract_json_from_text` yields the whole-text parse for the
well-formed response texts the claims quantify over, and `none` when no
JSON block parses): process the normalized candidate items; if none
survive, try the bare-UUID fallback; if still none, the title-substring
fallback. -/
def parse_ai_response (minSim : Int) (minW maxW minC : Nat) (stops : List String)
    (cands : List Cand) (data : Option Json) (text : String) : List FConn :=
  match data with
  | none => []
  | some d0 =>
    if !jTruthy d0 then []
    else
      let items := batchExpand (candidatesOf d0)
      let conns := items.filterMap (processItem minSim minW maxW minC stops cands)
      let conns2 := if conns = [] then uuidFallbackConns cands text else conns
      if conns2 = [] then titleFallbackConns cands text else conns2

/-- The post-filter `analyze_ai` applies to the secondary
(`parse_ai_response`) connections: `reason_ok` and a `MIN_SIM` threshold
on the score (scores at most 1 are scaled by 100). -/
def fallbackFilter (minSim : Int) (minW maxW minC : Nat) (stops : List String)
    (conns : List FConn) : List FConn :=
  conns.filter (fun c =>
    reason_ok minW maxW minC stops c.reason &&
      pyRound (if c.score ≤ 1 then c.score * 100 else c.score) ≥ minSim)

/-- What one `analyze_ai` attempt returns for a response: the primary
path's accepted items when non-empty, else the filtered secondary
connections. -/
inductive AnalyzeOutcome where
  | primary : List OutConn → AnalyzeOutcome
  | fallback : List FConn → AnalyzeOutcome
deriving DecidableEq, Repr

/-- The response-processing core of `analyze_ai` (one attempt, after the
external call returned `text`, which parses as the JSON document `data`):
run `_parse_ai_json_robust` plus the per-item filters; when nothing is
accepted, run `parse_ai_response` and its post-filter. -/
def analyze_ai_attempt (minSim : Int) (minW maxW minC : Nat) (stops : List String)
    (cands : List Cand) (data : Json) (text : String) : AnalyzeOutcome :=
  let validIds := cands.map Cand.id
  let out := analyzeFilter minSim minW maxW minC stops validIds (parse_ai_json_robust_wf data)
  if out ≠ [] then AnalyzeOutcome.primary out
  else AnalyzeOutcome.fallback
    (fallbackFilter minSim minW maxW minC stops
      (parse_ai_response minSim minW maxW minC stops cands (some data) text))


/-- The concrete candidate id used by the C5 instances. -/
def c5Uuid : String := "aaaaaaaa-aaaa-aaaa-aaaa-aaaaaaaaaaaa"

/-- A reason satisfying the default word-count/content rule. -/
def c5Reason : String := "els gats mengen peix cada dia amb molta gana"

/-- The parsed single-item array fields with similarity 10. -/
def c5Fields : List (String × Json) :=
  [("id", Json.str c5Uuid), ("similarity", Json.num 10),
   ("reason", Json.str c5Reason)]

/-- The concrete candidate set used by the C5 instances. -/
def c5Cands : List Cand := [⟨c5Uuid, "Quantum Note"⟩]

/-- The raw response text whose whole-text JSON parse yields
`[c5Fields]` (spelled with code-point braces). -/
def c5Text : String :=
  "[" ++ (⟨[Char.ofNat 123]⟩ : String) ++ "\"id\":\"" ++ c5Uuid ++
    "\",\"similarity\":10,\"reason\":\"" ++ c5Reason ++ "\"" ++
    (⟨[Char.ofNat 125]⟩ : String) ++ "]"

end Parser

/-! ## Theorems about the claims -/

/-- C4: the claim says a persistence failure inside `save_graph` is
logged and re-raised to the caller.  Counterexample: a failing write body
is logged and swallowed — `save_graph` returns normally and never yields
a raised exception. -/
theorem c4_counterexample :
    save_graph (Except.error "disk full") = SaveOutcome.loggedAndSwallowed "disk full" ∧
    save_graph (Except.error "disk full") ≠ SaveOutcome.raised "disk full" :=
  ⟨rfl, by decide⟩

/-- C4 (amended): whatever error the write body raises, `save_graph`
logs it and returns normally; the exception is never re-raised. -/
theorem c4_save_graph_logs_and_swallows (e : String) :
    save_graph (Except.error e) = SaveOutcome.loggedAndSwallowed e := rfl

/-- C9: on the single-node graph with one self-loop edge of similarity
90, `validate_graph` removes the edge, counts it under
`removed_selfloops` (exactly 1), and counts nothing under
`removed_invalid_ids`. -/
theorem c9_validator_removes_selfloop :
    (Validator.validate_graph 0 true
        [{ id := some "11111111-1111-1111-1111-111111111111" }]
        [{ source := some "11111111-1111-1111-1111-111111111111",
           target := some "11111111-1111-1111-1111-111111111111",
           similarity := some 90, score := none, dashes := false,
           evidence := Validator.StrField.null,
           reasons := Validator.StrField.null }]).edges = [] ∧
    (Validator.validate_graph 0 true
        [{ id := some "11111111-1111-1111-1111-111111111111" }]
        [{ source := some "11111111-1111-1111-1111-111111111111",
           target := some "11111111-1111-1111-1111-111111111111",
           similarity := some 90, score := none, dashes := false,
           evidence := Validator.StrField.null,
           reasons := Validator.StrField.null }]).stats.removed_selfloops = 1 ∧
    (Validator.validate_graph 0 true
        [{ id := some "11111111-1111-1111-1111-111111111111" }]
        [{ source := some "11111111-1111-1111-1111-111111111111",
           target := some "11111111-1111-1111-1111-111111111111",
           similarity := some 90, score := none, dashes := false,
           evidence := Validator.StrField.null,
           reasons := Validator.StrField.null }]).stats.removed_invalid_ids = 0 :=
  ⟨rfl, rfl, rfl⟩

set_option maxHeartbeats 4000000 in
/-- C1: the claim says a purely-AI edge whose reason fails the quality
check has its reason backfilled and is dropped when the backfill still
fails.  The code compares the evidence *set* against the *string*
`"ai"`, which is always false, so the branch never runs: an AI edge with
a two-word reason and no tag/project overlap is merged unchanged and
appears in the output, for every configured `MIN_REASON_WORDS`. -/
theorem c1_ai_edge_with_poor_reason_is_merged (minReasonWords : Nat) :
    (Merge.postprocess_graph minReasonWords none none
        [{ id := "aaaa", title := "Note A", tags := [], projects := [] },
         { id := "bbbb", title := "Note B", tags := [], projects := [] }]
        [{ source := "aaaa", target := "bbbb", evidence := Merge.EvField.many ["ai"],
           dashes := true, via_tags := [], similarity := some 77, score := none,
           reason := some "massa curt" }]).edges =
      [{ source := "aaaa", target := "bbbb", evidence := ["ai"],
         reasons := ["massa curt"], similarity := some 77, score := none,
         tags_overlap := [], project_overlap := [], directed := false,
         direction_info := "undirected", dashes := true, arrow := none }] := rfl

set_option maxHeartbeats 4000000 in
/-- C2: the claim says a purely-explicit edge with no numeric similarity
is seeded at (or raised to) similarity 100.  The code compares the
evidence *set* against the *string* `"explicit"`, which is always false,
so the merged record keeps similarity `None` — both when the record is
created (first conjunct) and when a second explicit edge merges into it
(second conjunct). -/
theorem c2_explicit_edge_similarity_stays_none (minReasonWords : Nat) :
    (Merge.postprocess_graph minReasonWords none none
        [{ id := "aaaa", title := "Note A", tags := [], projects := [] },
         { id := "bbbb", title := "Note B", tags := [], projects := [] }]
        [{ source := "aaaa", target := "bbbb", evidence := Merge.EvField.many ["explicit"],
           dashes := false, via_tags := [], similarity := none, score := none,
           reason := some "ref: Enllaça a" }]).edges =
      [{ source := "aaaa", target := "bbbb", evidence := ["explicit"],
         reasons := ["ref: Enllaça a"], similarity := none, score := none,
         tags_overlap := [], project_overlap := [], directed := true,
         direction_info := "source_to_target", dashes := false, arrow := some "end" }] ∧
    (Merge.postprocess_graph minReasonWords none none
        [{ id := "aaaa", title := "Note A", tags := [], projects := [] },
         { id := "bbbb", title := "Note B", tags := [], projects := [] }]
        [{ source := "aaaa", target := "bbbb", evidence := Merge.EvField.many ["explicit"],
           dashes := false, via_tags := [], similarity := none, score := none,
           reason := some "ref: Enllaça a" },
         { source := "bbbb", target := "aaaa", evidence := Merge.EvField.many ["explicit"],
           dashes := false, via_tags := [], similarity := none, score := none,
           reason := some "ref: Enllaça a" }]).edges =
      [{ source := "aaaa", target := "bbbb", evidence := ["explicit"],
         reasons := ["ref: Enllaça a"], similarity := none, score := none,
         tags_overlap := [], project_overlap := [], directed := true,
         direction_info := "source_to_target", dashes := false, arrow := some "end" }] :=
  ⟨rfl, rfl⟩

/-- C3 counterexample: with `K = 1` and three merged edges incident to
node `nnnn` (similarities 90, 80, 70, distinct opposite endpoints), the
top-K pruning keeps *all three* edges — three edges incident to `nnnn`
survive, so the step does not keep exactly the similarity-90 edge for
that node. -/
theorem c3_counterexample :
    (Merge.prune none (some 1)
        [{ source := "nnnn", target := "aaaa", evidence := ["ai"], reasons := [],
           similarity := some 90, score := none, tags_overlap := [], project_overlap := [],
           directed := false, direction_info := "undirected", dashes := true, arrow := none },
         { source := "nnnn", target := "bbbb", evidence := ["ai"], reasons := [],
           similarity := some 80, score := none, tags_overlap := [], project_overlap := [],
           directed := false, direction_info := "undirected", dashes := true, arrow := none },
         { source := "nnnn", target := "cccc", evidence := ["ai"], reasons := [],
           similarity := some 70, score := none, tags_overlap := [], project_overlap := [],
           directed := false, direction_info := "undirected", dashes := true,
           arrow := none }]).length = 3 ∧
    ((Merge.prune none (some 1)
        [{ source := "nnnn", target := "aaaa", evidence := ["ai"], reasons := [],
           similarity := some 90, score := none, tags_overlap := [], project_overlap := [],
           directed := false, direction_info := "undirected", dashes := true, arrow := none },
         { source := "nnnn", target := "bbbb", evidence := ["ai"], reasons := [],
           similarity := some 80, score := none, tags_overlap := [], project_overlap := [],
           directed := false, direction_info := "undirected", dashes := true, arrow := none },
         { source := "nnnn", target := "cccc", evidence := ["ai"], reasons := [],
           similarity := some 70, score := none, tags_overlap := [], project_overlap := [],
           directed := false, direction_info := "undirected", dashes := true,
           arrow := none }]).filter
      (fun e => e.source = "nnnn" || e.target = "nnnn")).length = 3 :=
  ⟨rfl, rfl⟩

/-- C3 (amended): on that input the greedy cap check admits an edge as
soon as *either* endpoint is under the cap, so each lower-similarity
edge is admitted through its untouched opposite endpoint: the kept list
is the full sorted input (90 first), and node `nnnn` retains all three
edges despite `K = 1`. -/
theorem c3_topk_keeps_all_three :
    Merge.prune none (some 1)
        [{ source := "nnnn", target := "aaaa", evidence := ["ai"], reasons := [],
           similarity := some 90, score := none, tags_overlap := [], project_overlap := [],
           directed := false, direction_info := "undirected", dashes := true, arrow := none },
         { source := "nnnn", target := "bbbb", evidence := ["ai"], reasons := [],
           similarity := some 80, score := none, tags_overlap := [], project_overlap := [],
           directed := false, direction_info := "undirected", dashes := true, arrow := none },
         { source := "nnnn", target := "cccc", evidence := ["ai"], reasons := [],
           similarity := some 70, score := none, tags_overlap := [], project_overlap := [],
           directed := false, direction_info := "undirected", dashes := true, arrow := none }] =
      [{ source := "nnnn", target := "aaaa", evidence := ["ai"], reasons := [],
         similarity := some 90, score := none, tags_overlap := [], project_overlap := [],
         directed := false, direction_info := "undirected", dashes := true, arrow := none },
       { source := "nnnn", target := "bbbb", evidence := ["ai"], reasons := [],
         similarity := some 80, score := none, tags_overlap := [], project_overlap := [],
         directed := false, direction_info := "undirected", dashes := true, arrow := none },
       { source := "nnnn", target := "cccc", evidence := ["ai"], reasons := [],
         similarity := some 70, score := none, tags_overlap := [], project_overlap := [],
         directed := false, direction_info := "undirected", dashes := true,
         arrow := none }] := rfl

/-- Normalizing nodes keeps their ids. -/
theorem nodeIds_normalize (nodes : List Merge.Node) :
    (nodes.map Merge.normalizeNode).map Merge.Node.id = nodes.map Merge.Node.id := by
  rw [List.map_map]
  rfl

/-- C7: merging two candidate edges of the same unordered endpoint pair
with numeric similarities `s1, s2 ∈ [0,100]` yields similarity
`max s1 s2`, which again lies in `[0,100]` — both in the Graph
Validator's `merge_edge` (first conjunct) and in the Merge engine's
merge step of `postprocess_graph` (second conjunct). -/
theorem c7_merge_similarity_is_max :
    (∀ (a b : Validator.VEdge) (s1 s2 : Int),
        a.similarity = some s1 → b.similarity = some s2 →
        0 ≤ s1 → s1 ≤ 100 → 0 ≤ s2 → s2 ≤ 100 →
        (Validator.merge_edge a b).similarity = some (max s1 s2) ∧
          0 ≤ max s1 s2 ∧ max s1 s2 ≤ 100) ∧
    (∀ (minReasonWords : Nat) (nodes : List Merge.Node)
        (e1 e2 : Merge.InEdge) (s1 s2 : Int),
        Merge.sort_pair e2.source e2.target = Merge.sort_pair e1.source e1.target →
        (nodes.map Merge.Node.id).contains e1.source = true →
        (nodes.map Merge.Node.id).contains e1.target = true →
        (nodes.map Merge.Node.id).contains e2.source = true →
        (nodes.map Merge.Node.id).contains e2.target = true →
        e1.similarity = some s1 → e2.similarity = some s2 →
        0 ≤ s1 → s1 ≤ 100 → 0 ≤ s2 → s2 ≤ 100 →
        (Merge.postprocess_graph minReasonWords none none nodes [e1, e2]).edges.map
            (fun e => e.similarity) = [some (max s1 s2)] ∧
          0 ≤ max s1 s2 ∧ max s1 s2 ≤ 100) := by
  constructor
  · intro a b s1 s2 ha hb h1 h2 h3 h4
    refine ⟨?_, by omega, by omega⟩
    simp only [Validator.merge_edge, ha, hb, Option.isSome_some, Bool.true_or, if_true,
      Option.getD_some]
  · intro minReasonWords nodes e1 e2 s1 s2 hpair h1s h1t h2s h2t hs1 hs2 h1 h2 h3 h4
    refine ⟨?_, by omega, by omega⟩
    have hmax : (if s2 > s1 then some s2 else some s1) = some (max s1 s2) := by
      split <;> simp <;> omega
    simp only [Merge.postprocess_graph, Merge.mergePass, List.foldl, Merge.mergeStep,
      nodeIds_normalize, h1s, h1t, h2s, h2t, Bool.and_self, Bool.not_true, Bool.false_and,
      Merge.pyEqSetStr, hs1, hs2, hpair, if_false, Bool.false_eq_true]
    simp only [Merge.lookupEntry, Merge.setEntry, if_pos rfl]
    simp only [Merge.prune, Merge.finalizeEntry]
    simp [hmax]

/-- C7 witness: concrete merges — `merge_edge` on similarities 70/85
gives 85, and `postprocess_graph` on two raw edges of the pair
(aaaa, bbbb) with similarities 70/85 gives one edge of similarity 85. -/
theorem c7_merge_similarity_is_max_witness :
    (Validator.merge_edge
        { source := some "aaaa", target := some "bbbb", similarity := some 70,
          score := none, dashes := false, evidence := Validator.StrField.null,
          reasons := Validator.StrField.null }
        { source := some "bbbb", target := some "aaaa", similarity := some 85,
          score := none, dashes := false, evidence := Validator.StrField.null,
          reasons := Validator.StrField.null }).similarity = some 85 ∧
    (Merge.postprocess_graph 8 none none
        [{ id := "aaaa", title := "Note A", tags := [], projects := [] },
         { id := "bbbb", title := "Note B", tags := [], projects := [] }]
        [{ source := "aaaa", target := "bbbb", evidence := Merge.EvField.many ["ai"],
           dashes := true, via_tags := [], similarity := some 70, score := none,
           reason := none },
         { source := "bbbb", target := "aaaa", evidence := Merge.EvField.many ["tags"],
           dashes := false, via_tags := [], similarity := some 85, score := none,
           reason := none }]).edges.map (fun e => e.similarity) = [some 85] := by
  constructor
  · have h := c7_merge_similarity_is_max.1
      { source := some "aaaa", target := some "bbbb", similarity := some 70,
        score := none, dashes := false, evidence := Validator.StrField.null,
        reasons := Validator.StrField.null }
      { source := some "bbbb", target := some "aaaa", similarity := some 85,
        score := none, dashes := false, evidence := Validator.StrField.null,
        reasons := Validator.StrField.null }
      70 85 rfl rfl (by decide) (by decide) (by decide) (by decide)
    simpa using h.1
  · have h := c7_merge_similarity_is_max.2 8
      [{ id := "aaaa", title := "Note A", tags := [], projects := [] },
       { id := "bbbb", title := "Note B", tags := [], projects := [] }]
      { source := "aaaa", target := "bbbb", evidence := Merge.EvField.many ["ai"],
        dashes := true, via_tags := [], similarity := some 70, score := none,
        reason := none }
      { source := "bbbb", target := "aaaa", evidence := Merge.EvField.many ["tags"],
        dashes := false, via_tags := [], similarity := some 85, score := none,
        reason := none }
      70 85 (by decide) (by decide) (by decide) (by decide) (by decide) rfl rfl
      (by decide) (by decide) (by decide) (by decide)
    simpa using h.1

/-- A reason that tokenizes to exactly 7 words fails the parser's
`reason_ok` whenever the configured minimum word count is at least 8. -/
theorem reasonOk_false_of_seven (minW maxW minC : Nat) (stops : List String) (r : String)
    (h7 : (tokenizeWords r).length = 7) (h8 : 8 ≤ minW) :
    Parser.reason_ok minW maxW minC stops r = false := by
  simp only [Parser.reason_ok]
  split
  · rfl
  · rw [h7]
    have h5 : (7 : Nat) < minW := by omega
    simp [h5]

/-- C10: both fallback-ladder stages of `parse_ai_response` stamp one of
two fixed reasons; each tokenizes to exactly 7 words; hence whenever the
configured `MIN_REASON_WORDS` is at least 8 (its default), the
`analyze_ai` post-filter rejects every fallback connection, and the
fallback ladder contributes nothing to `analyze_ai`'s returned list. -/
theorem c10_fallback_ladder_always_rejected :
    (tokenizeWords Parser.fallbackReasonUuid).length = 7 ∧
    (tokenizeWords Parser.fallbackReasonTitle).length = 7 ∧
    (∀ (cands : List Parser.Cand) (text : String) (c : Parser.FConn),
        c ∈ Parser.uuidFallbackConns cands text → c.reason = Parser.fallbackReasonUuid) ∧
    (∀ (cands : List Parser.Cand) (text : String) (c : Parser.FConn),
        c ∈ Parser.titleFallbackConns cands text → c.reason = Parser.fallbackReasonTitle) ∧
    (∀ (minSim : Int) (minW maxW minC : Nat) (stops : List String)
        (conns : List Parser.FConn),
        8 ≤ minW →
        (∀ c ∈ conns, c.reason = Parser.fallbackReasonUuid ∨
          c.reason = Parser.fallbackReasonTitle) →
        Parser.fallbackFilter minSim minW maxW minC stops conns = []) := by
  refine ⟨by decide, by decide, ?_, ?_, ?_⟩
  · intro cands text c hc
    rw [Parser.uuidFallbackConns, List.mem_filterMap] at hc
    obtain ⟨uid, _, hf⟩ := hc
    cases hfind : cands.find? (fun cd => cd.id = uid) with
    | none => rw [hfind] at hf; cases hf
    | some cd =>
      rw [hfind] at hf
      cases hf
      rfl
  · intro cands text c hc
    rw [Parser.titleFallbackConns, List.mem_filterMap] at hc
    obtain ⟨kv, _, hf⟩ := hc
    by_cases hne : (kv.1 ≠ "" && strContains (pyLower text) kv.1) = true
    · rw [if_pos hne] at hf
      cases hfind : cands.find? (fun cd => cd.id = kv.2) with
      | none => rw [hfind] at hf; cases hf
      | some cd =>
        rw [hfind] at hf
        cases hf
        rfl
    · rw [if_neg hne] at hf; cases hf
  · intro minSim minW maxW minC stops conns h8 hr
    rw [Parser.fallbackFilter, List.filter_eq_nil_iff]
    intro c hc
    have h7 : (tokenizeWords c.reason).length = 7 := by
      rcases hr c hc with h | h <;> rw [h] <;> decide
    rw [reasonOk_false_of_seven minW maxW minC stops c.reason h7 h8]
    simp

/-- C10 witness: a concrete bare-UUID fallback connection (whole
response text is a known candidate UUID) is non-empty before the filter
and empty after it, at the default configuration. -/
theorem c10_fallback_ladder_always_rejected_witness :
    Parser.fallbackFilter 65 8 20 5 []
        (Parser.uuidFallbackConns [⟨"aaaaaaaa-aaaa-aaaa-aaaa-aaaaaaaaaaaa", "Nota A"⟩]
          "aaaaaaaa-aaaa-aaaa-aaaa-aaaaaaaaaaaa") = [] ∧
    Parser.uuidFallbackConns [⟨"aaaaaaaa-aaaa-aaaa-aaaa-aaaaaaaaaaaa", "Nota A"⟩]
        "aaaaaaaa-aaaa-aaaa-aaaa-aaaaaaaaaaaa" ≠ [] :=
  ⟨c10_fallback_ladder_always_rejected.2.2.2.2 65 8 20 5 []
      (Parser.uuidFallbackConns [⟨"aaaaaaaa-aaaa-aaaa-aaaa-aaaaaaaaaaaa", "Nota A"⟩]
        "aaaaaaaa-aaaa-aaaa-aaaa-aaaaaaaaaaaa")
      (by omega) (by decide),
   by decide⟩

theorem dropWhile_eq_self_of_head (p : Char → Bool) (l : List Char)
    (h : ∀ c, l.head? = some c → p c = false) : l.dropWhile p = l := by
  cases l with
  | nil => rfl
  | cons c cs => simp [List.dropWhile_cons, h c rfl]

theorem head_dropWhile_false (p : Char → Bool) (l : List Char) :
    ∀ c, (l.dropWhile p).head? = some c → p c = false := by
  induction l with
  | nil => simp
  | cons x xs ih =>
    intro c h
    rw [List.dropWhile_cons] at h
    by_cases hp : p x = true
    · rw [if_pos hp] at h
      exact ih c h
    · rw [if_neg hp] at h
      simp only [List.head?_cons, Option.some.injEq] at h
      subst h
      simpa using hp

theorem getLast?_dropWhile (p : Char → Bool) (l : List Char)
    (h : l.dropWhile p ≠ []) : (l.dropWhile p).getLast? = l.getLast? := by
  induction l with
  | nil => simp at h
  | cons x xs ih =>
    by_cases hp : p x = true
    · rw [List.dropWhile_cons, if_pos hp] at h ⊢
      rw [ih h]
      have hxs : xs ≠ [] := by
        intro hh
        subst hh
        simp at h
      cases xs with
      | nil => simp at hxs
      | cons y ys => rw [List.getLast?_cons_cons]
    · rw [List.dropWhile_cons, if_neg hp]

theorem head_pyStrip_false (cs : List Char) :
    ∀ c, (pyStripList cs).head? = some c → isPyWs c = false := by
  intro c h
  unfold pyStripList at h
  rw [List.head?_reverse] at h
  by_cases hB : (cs.dropWhile isPyWs).reverse.dropWhile isPyWs = []
  · rw [hB] at h
    simp at h
  · rw [getLast?_dropWhile _ _ hB, List.getLast?_reverse] at h
    exact head_dropWhile_false _ _ c h

theorem getLast_pyStrip_false (cs : List Char) :
    ∀ c, (pyStripList cs).getLast? = some c → isPyWs c = false := by
  intro c h
  unfold pyStripList at h
  rw [List.getLast?_reverse] at h
  exact head_dropWhile_false _ _ c h

theorem pyStripList_of_ends (l : List Char)
    (hh : ∀ c, l.head? = some c → isPyWs c = false)
    (hl : ∀ c, l.getLast? = some c → isPyWs c = false) : pyStripList l = l := by
  show ((l.dropWhile isPyWs).reverse.dropWhile isPyWs).reverse = l
  rw [dropWhile_eq_self_of_head _ _ hh]
  rw [dropWhile_eq_self_of_head _ _ (by intro c h; rw [List.head?_reverse] at h; exact hl c h)]
  exact List.reverse_reverse l

theorem pyStripList_idem (cs : List Char) :
    pyStripList (pyStripList cs) = pyStripList cs :=
  pyStripList_of_ends _ (head_pyStrip_false cs) (getLast_pyStrip_false cs)

theorem pyStrip_idem (s : String) : pyStrip (pyStrip s) = pyStrip s := by
  simp [pyStrip, pyStripList_idem]


theorem getLast?_cons_of_getLast? (a : Char) (l : List Char) (c : Char)
    (h : l.getLast? = some c) : (a :: l).getLast? = some c := by
  cases l with
  | nil => simp at h
  | cons x xs => rw [List.getLast?_cons_cons]; exact h

theorem collapse_pair (cs : List Char) :
    Parser.collapseWs (Parser.collapseWs cs) = Parser.collapseWs cs ∧
    Parser.collapseSkip (Parser.collapseSkip cs) = Parser.collapseSkip cs := by
  induction cs with
  | nil => exact ⟨rfl, rfl⟩
  | cons c cs ih =>
    by_cases hc : isPyWs c = true
    · have hsp : isPyWs ' ' = true := by decide
      constructor
      · simp [Parser.collapseWs, Parser.collapseSkip, hc, hsp, ih.2]
      · simp [Parser.collapseSkip, hc, ih.2]
    · constructor
      · simp [Parser.collapseWs, hc, ih.1]
      · simp [Parser.collapseSkip, Parser.collapseWs, hc, ih.1]

theorem collapse_getLast (c : Char) (hc : isPyWs c = false) :
    ∀ cs : List Char,
      (cs.getLast? = some c → (Parser.collapseWs cs).getLast? = some c) ∧
      (cs.getLast? = some c → (Parser.collapseSkip cs).getLast? = some c) := by
  intro cs
  induction cs with
  | nil => simp
  | cons x xs ih =>
    cases xs with
    | nil =>
      constructor <;> intro h <;> simp at h <;> subst h
      · simp [Parser.collapseWs, hc]
      · simp [Parser.collapseSkip, Parser.collapseWs, hc]
    | cons y ys =>
      rw [List.getLast?_cons_cons]
      constructor <;> intro h
      · by_cases hx : isPyWs x = true
        · simp only [Parser.collapseWs, hx, if_true]
          exact getLast?_cons_of_getLast? _ _ _ (ih.2 h)
        · simp only [Parser.collapseWs, hx, if_false, Bool.false_eq_true]
          exact getLast?_cons_of_getLast? _ _ _ (ih.1 h)
      · by_cases hx : isPyWs x = true
        · simp only [Parser.collapseSkip, hx, if_true]
          exact ih.2 h
        · simp only [Parser.collapseSkip, hx, if_false, Bool.false_eq_true]
          exact getLast?_cons_of_getLast? _ _ _ (ih.1 h)

theorem collapse_head (cs : List Char)
    (h : ∀ c, cs.head? = some c → isPyWs c = false) :
    ∀ c, (Parser.collapseWs cs).head? = some c → isPyWs c = false := by
  cases cs with
  | nil => simp [Parser.collapseWs]
  | cons d rest =>
    intro c hcc
    have hd : isPyWs d = false := h d rfl
    simp only [Parser.collapseWs, hd, if_false, Bool.false_eq_true, List.head?_cons,
      Option.some.injEq] at hcc
    subst hcc
    exact hd

theorem norm_reason_idem (s : String) :
    Parser.norm_reason (Parser.norm_reason s) = Parser.norm_reason s := by
  show (⟨Parser.collapseWs (pyStripList (Parser.collapseWs (pyStripList s.data)))⟩ : String) =
    ⟨Parser.collapseWs (pyStripList s.data)⟩
  have hstrip : pyStripList (Parser.collapseWs (pyStripList s.data)) =
      Parser.collapseWs (pyStripList s.data) := by
    apply pyStripList_of_ends
    · exact collapse_head _ (head_pyStrip_false _)
    · intro c hcc
      cases hst : (pyStripList s.data).getLast? with
      | none =>
        have : pyStripList s.data = [] := by
          cases hE : pyStripList s.data with
          | nil => rfl
          | cons a b => rw [hE] at hst; simp [List.getLast?_cons] at hst
        rw [this] at hcc
        simp [Parser.collapseWs] at hcc
      | some d =>
        have hd : isPyWs d = false := getLast_pyStrip_false _ d hst
        have := (collapse_getLast d hd (pyStripList s.data)).1 hst
        rw [this] at hcc
        cases hcc
        exact hd
  rw [hstrip, (collapse_pair _).1]

/-- Python `int(round(10.0))` is 10. -/
theorem pyRound_ten : pyRound (10 : Rat) = 10 := by
  unfold pyRound
  norm_num

/-- The score normalization of `parse_ai_response` on the similarity-10
item reads it as a 0-100 similarity. -/
theorem c5_scoreOfItem :
    Parser.scoreOfItem Parser.c5Fields = (((10 : Int) : Rat) / 100, some 10) := by
  simp only [Parser.scoreOfItem, Parser.scoreFields, List.foldl, Parser.jGet,
    Parser.c5Fields]
  simp +decide only [Parser.jToRat]
  norm_num [pyRound_ten]

/-- The `parse_ai_response` item loop drops the similarity-10 item at
the `MIN_SIM` threshold. -/
theorem c5_processItem_drops :
    Parser.processItem 65 8 20 5 [] Parser.c5Cands (Parser.Json.obj Parser.c5Fields) = none := by
  have hres : Parser.resolveFromItem Parser.c5Cands Parser.c5Fields = some Parser.c5Uuid := by
    decide
  have hreason : Parser.reasonOfItem Parser.c5Fields = Parser.c5Reason := by decide
  simp only [Parser.processItem, hres, c5_scoreOfItem, hreason]
  simp +decide

/-- The whole secondary parse of the similarity-10 response yields
nothing: the item dies at `MIN_SIM` and neither fallback fires. -/
theorem c5_parse_ai_response_empty :
    Parser.parse_ai_response 65 8 20 5 [] Parser.c5Cands
      (some (Parser.Json.arr [Parser.Json.obj Parser.c5Fields])) Parser.c5Text = [] := by
  simp only [Parser.parse_ai_response, Parser.jTruthy, Parser.candidatesOf,
    Parser.batchExpand, Parser.jGet, List.flatMap, List.filterMap]
  simp +decide only []
  simp only [List.filterMap, c5_processItem_drops]
  rw [show Parser.uuidFallbackConns Parser.c5Cands Parser.c5Text = [] from by decide]
  rw [show Parser.titleFallbackConns Parser.c5Cands Parser.c5Text = [] from by decide]
  simp

/-- C5 counterexample: the claim asserts acceptance for every
`0 ≤ N ≤ 100`; at `N = 10` (below the default `MIN_SIM = 65`) every
premise of the claim holds — the id is a known candidate and the reason
passes the word-count/content rule — yet `analyze_ai`'s processing of
the well-formed single-item array accepts no item at all. -/
theorem c5_counterexample :
    (1 : Int) ≤ 10 ∧ (10 : Int) ≤ 100 ∧
    (Parser.c5Cands.map Parser.Cand.id).contains Parser.c5Uuid = true ∧
    Parser.reason_ok 8 20 5 [] (Parser.norm_reason Parser.c5Reason) = true ∧
    Parser.analyze_ai_attempt 65 8 20 5 [] Parser.c5Cands
        (Parser.Json.arr [Parser.Json.obj Parser.c5Fields]) Parser.c5Text =
      Parser.AnalyzeOutcome.fallback [] := by
  refine ⟨by decide, by decide, by decide, by decide, ?_⟩
  have hmain : Parser.analyzeFilter 65 8 20 5 [] (Parser.c5Cands.map Parser.Cand.id)
      (Parser.parse_ai_json_robust_wf (Parser.Json.arr [Parser.Json.obj Parser.c5Fields])) =
      [] := by decide
  simp only [Parser.analyze_ai_attempt, hmain]
  rw [c5_parse_ai_response_empty]
  simp [Parser.fallbackFilter]

/-- C5 (amended): for a response text that is exactly the well-formed
single-item array with a known, already-clean candidate id `U`, an
integer similarity `N` with `max(1, MIN_SIM) <= N <= 100`, and a reason
passing the word-count/content rule, the primary path of `analyze_ai`
accepts exactly one item: id `U`, the similarity `N` (stored under the
`score` key), and the whitespace-normalized reason. -/
theorem c5_roundtrip_amended (minSim : Int) (minW maxW minC : Nat) (stops : List String)
    (cands : List Parser.Cand) (U R : String) (N : Int) (text : String)
    (hU : (cands.map Parser.Cand.id).contains U = true)
    (hclean : Parser.strip_id (pyStrip U) = U)
    (hUne : U ≠ "")
    (hN1 : 1 ≤ N) (hN100 : N ≤ 100) (hMin : minSim ≤ N)
    (hR : Parser.reason_ok minW maxW minC stops (Parser.norm_reason R) = true) :
    Parser.analyze_ai_attempt minSim minW maxW minC stops cands
        (Parser.Json.arr [Parser.Json.obj
          [("id", Parser.Json.str U), ("similarity", Parser.Json.num N),
           ("reason", Parser.Json.str R)]]) text =
      Parser.AnalyzeOutcome.primary [⟨U, N, Parser.norm_reason R⟩] := by
  have hRne : R ≠ "" := by
    intro h
    subst h
    simp [Parser.reason_ok, Parser.norm_reason, pyStripList, Parser.collapseWs] at hR
  have hN0 : N ≠ 0 := by omega
  have hclamp : max 0 (min 100 N) = N := by omega
  have hstrip : pyStrip U ≠ "" := by
    intro h
    apply hUne
    rw [← hclean, h]
    rfl
  have hpush : Parser.pushItem
      [("id", Parser.Json.str U), ("similarity", Parser.Json.num N),
       ("reason", Parser.Json.str R)] = some ⟨pyStrip U, N, Parser.norm_reason R⟩ := by
    simp only [Parser.pushItem, Parser.jGet, Parser.pyOr, Parser.jTruthy,
      Parser.coerceInt0100]
    simp [hUne, hN0, hRne, hclamp, hstrip]
  have hfilter : Parser.analyzeFilter minSim minW maxW minC stops
      (cands.map Parser.Cand.id) [⟨pyStrip U, N, Parser.norm_reason R⟩] =
      [⟨U, N, Parser.norm_reason R⟩] := by
    simp only [Parser.analyzeFilter, List.filterMap]
    rw [pyStrip_idem, hclean]
    simp only [hU, hUne, Parser.coerceInt0100, hclamp, norm_reason_idem, hR]
    have : ¬ (N < minSim) := by omega
    simp [this, hUne]
  simp only [Parser.analyze_ai_attempt, Parser.parse_ai_json_robust_wf,
    Parser.extract_connections, Parser.collectList, List.filterMap, hpush]
  rw [hfilter]
  simp

/-- C5 witness: the concrete array with similarity 70 and the known
candidate is accepted as exactly one item. -/
theorem c5_roundtrip_amended_witness :
    Parser.analyze_ai_attempt 65 8 20 5 [] Parser.c5Cands
        (Parser.Json.arr [Parser.Json.obj
          [("id", Parser.Json.str Parser.c5Uuid), ("similarity", Parser.Json.num 70),
           ("reason", Parser.Json.str Parser.c5Reason)]]) "response" =
      Parser.AnalyzeOutcome.primary [⟨Parser.c5Uuid, 70, Parser.c5Reason⟩] := by
  have h := c5_roundtrip_amended 65 8 20 5 [] Parser.c5Cands Parser.c5Uuid
    Parser.c5Reason 70 "response" (by decide) (by decide) (by decide) (by decide)
    (by decide) (by decide) (by decide)
  rw [h]
  rw [show Parser.norm_reason Parser.c5Reason = Parser.c5Reason from by decide]

theorem sum_map_le_of_le (l : List String) (f g : String → Nat)
    (h : ∀ v ∈ l, f v ≤ g v) : (l.map f).sum ≤ (l.map g).sum := by
  induction l with
  | nil => simp
  | cons x xs ih =>
    simp only [List.map_cons, List.sum_cons]
    exact Nat.add_le_add (h x (by simp)) (ih (fun v hv => h v (by simp [hv])))

theorem sum_map_succ_le (l : List String) (f g : String → Nat) (a : String)
    (ha : a ∈ l) (hfg : ∀ v ∈ l, f v ≤ g v) (hfa : f a + 1 ≤ g a) :
    (l.map f).sum + 1 ≤ (l.map g).sum := by
  induction l with
  | nil => simp at ha
  | cons x xs ih =>
    simp only [List.map_cons, List.sum_cons]
    rcases List.mem_cons.mp ha with h | hmem
    · subst h
      have h2 : (xs.map f).sum ≤ (xs.map g).sum :=
        sum_map_le_of_le xs f g (fun v hv => hfg v (by simp [hv]))
      omega
    · have h1 : f x ≤ g x := hfg x (by simp)
      have h2 := ih hmem (fun v hv => hfg v (by simp [hv]))
      omega

theorem sum_map_const (k : Nat) (l : List String) :
    (l.map fun _ => k).sum = k * l.length := by
  induction l with
  | nil => simp
  | cons y ys ihy =>
    simp only [List.map_cons, List.sum_cons, ihy, List.length_cons, Nat.mul_succ]
    omega

theorem bump2_eval (a b : String) (counts : String → Nat) :
    Merge.bump b (Merge.bump a counts) =
      fun v => counts v + (if v = a then 1 else 0) + (if v = b then 1 else 0) := by
  funext v
  unfold Merge.bump
  by_cases hb : v = b <;> by_cases ha : v = a
  · have hba : b = a := by rw [← hb]; exact ha
    simp [hb, ha, hba]
  · have hba : ¬ b = a := fun h => ha (hb.trans h)
    simp [hb, ha, hba]
  · have hab : ¬ a = b := fun h => hb (ha.trans h)
    simp [hb, ha, hab]
  · simp [hb, ha]

theorem greedy_bound (K : Int) (hK : 0 < K) (nodeIds : List String) :
    ∀ (L : List Merge.MergedEdge) (counts : String → Nat),
      (∀ e ∈ L, (Merge.sort_pair e.source e.target).1 ∈ nodeIds ∧
        (Merge.sort_pair e.source e.target).2 ∈ nodeIds) →
      (Merge.greedyTopK K counts L).length +
        (nodeIds.map (fun v => min (counts v) K.toNat)).sum ≤ K.toNat * nodeIds.length := by
  intro L
  induction L with
  | nil =>
    intro counts _
    simp only [Merge.greedyTopK, List.length_nil, Nat.zero_add]
    calc (nodeIds.map fun v => min (counts v) K.toNat).sum
        ≤ (nodeIds.map fun _ => K.toNat).sum :=
          sum_map_le_of_le _ _ _ (fun v _ => Nat.min_le_right _ _)
      _ = K.toNat * nodeIds.length := sum_map_const _ _
  | cons e rest ih =>
    intro counts hends
    have he := hends e (by simp)
    have hrest : ∀ e2 ∈ rest, (Merge.sort_pair e2.source e2.target).1 ∈ nodeIds ∧
        (Merge.sort_pair e2.source e2.target).2 ∈ nodeIds :=
      fun e2 h2 => hends e2 (by simp [h2])
    rw [Merge.greedyTopK, bump2_eval]
    set c2 : String → Nat := fun v =>
      counts v + (if v = (Merge.sort_pair e.source e.target).1 then 1 else 0) +
        (if v = (Merge.sort_pair e.source e.target).2 then 1 else 0) with hc2
    by_cases hadm :
        (decide ((counts (Merge.sort_pair e.source e.target).1 : Int) < K) ||
         decide ((counts (Merge.sort_pair e.source e.target).2 : Int) < K)) = true
    · rw [if_pos hadm]
      have hadm2 : (counts (Merge.sort_pair e.source e.target).1 : Int) < K ∨
          (counts (Merge.sort_pair e.source e.target).2 : Int) < K := by
        simpa using hadm
      have IH := ih c2 hrest
      have hpt : ∀ v ∈ nodeIds,
          (fun v => min (counts v) K.toNat) v ≤ (fun v => min (c2 v) K.toNat) v := by
        intro v _
        simp only [hc2]
        split <;> split <;> omega
      have key : (nodeIds.map (fun v => min (counts v) K.toNat)).sum + 1 ≤
          (nodeIds.map (fun v => min (c2 v) K.toNat)).sum := by
        rcases hadm2 with h | h
        · have hlt : counts (Merge.sort_pair e.source e.target).1 < K.toNat := by omega
          apply sum_map_succ_le _ _ _ _ he.1 hpt
          simp only [hc2, eq_self_iff_true, if_true, ite_true]
          by_cases hpp : (Merge.sort_pair e.source e.target).1 =
              (Merge.sort_pair e.source e.target).2
          · rw [if_pos hpp]
            omega
          · rw [if_neg hpp]
            omega
        · have hlt : counts (Merge.sort_pair e.source e.target).2 < K.toNat := by omega
          apply sum_map_succ_le _ _ _ _ he.2 hpt
          simp only [hc2, eq_self_iff_true, if_true, ite_true]
          by_cases hpp : (Merge.sort_pair e.source e.target).2 =
              (Merge.sort_pair e.source e.target).1
          · rw [if_pos hpp]
            omega
          · rw [if_neg hpp]
            omega
      simp only [List.length_cons]
      omega
    · rw [if_neg hadm]
      exact ih counts hrest


theorem mem_insDesc (x e : Merge.MergedEdge) (l : List Merge.MergedEdge) :
    x ∈ Merge.insDesc e l → x = e ∨ x ∈ l := by
  induction l with
  | nil => simp [Merge.insDesc]
  | cons y ys ih =>
    rw [Merge.insDesc]
    split
    · intro h
      rcases List.mem_cons.mp h with h | h
      · exact Or.inl h
      · exact Or.inr h
    · intro h
      rcases List.mem_cons.mp h with h | h
      · exact Or.inr (by simp [h])
      · rcases ih h with h | h
        · exact Or.inl h
        · exact Or.inr (by simp [h])

theorem mem_sortDesc (l : List Merge.MergedEdge) (x : Merge.MergedEdge) :
    x ∈ Merge.sortDesc l → x ∈ l := by
  have aux : ∀ (l2 : List Merge.MergedEdge) (acc : List Merge.MergedEdge),
      x ∈ l2.foldl (fun a e => Merge.insDesc e a) acc → x ∈ acc ∨ x ∈ l2 := by
    intro l2
    induction l2 with
    | nil => intro acc h; exact Or.inl h
    | cons e rest ih =>
      intro acc h
      rcases ih (Merge.insDesc e acc) h with h2 | h2
      · rcases mem_insDesc x e acc h2 with h3 | h3
        · exact Or.inr (by simp [h3])
        · exact Or.inl h3
      · exact Or.inr (by simp [h2])
  intro h
  rcases aux l [] h with h2 | h2
  · simp at h2
  · exact h2

/-- C8: for every edge list whose endpoints lie among the graph's node
ids and every configured top-K limit `K > 0`, the pruning step keeps at
most `K × node_count` edges.  Each admission requires an endpoint whose
counter is still under `K` and bumps both endpoint counters, so the sum
of capped counters grows with every kept edge and is bounded by
`K × node_count`. -/
theorem c8_topk_bounds_kept_edges (metaMin : Option Int) (K : Int) (nodeIds : List String)
    (edges : List Merge.MergedEdge) (hK : 0 < K)
    (hend : ∀ e ∈ edges, e.source ∈ nodeIds ∧ e.target ∈ nodeIds) :
    (Merge.prune metaMin (some K) edges).length ≤ K.toNat * nodeIds.length := by
  have hsp : ∀ (a b : String),
      ((Merge.sort_pair a b).1 = a ∨ (Merge.sort_pair a b).1 = b) ∧
      ((Merge.sort_pair a b).2 = a ∨ (Merge.sort_pair a b).2 = b) := by
    intro a b
    unfold Merge.sort_pair
    split <;> simp
  rw [Merge.prune]
  rw [if_neg (by simp)]
  show (if K ≤ 0 then edges.filter (Merge.keepEdge metaMin)
      else Merge.greedyTopK K (fun _ => 0)
        (Merge.sortDesc (edges.filter (Merge.keepEdge metaMin)))).length ≤ _
  rw [if_neg (by omega)]
  have hends : ∀ e ∈ Merge.sortDesc (edges.filter (Merge.keepEdge metaMin)),
      (Merge.sort_pair e.source e.target).1 ∈ nodeIds ∧
      (Merge.sort_pair e.source e.target).2 ∈ nodeIds := by
    intro e he
    have hmem : e ∈ edges := (List.mem_filter.mp (mem_sortDesc _ e he)).1
    have h2 := hend e hmem
    rcases hsp e.source e.target with ⟨h31 | h31, h32 | h32⟩ <;>
      exact ⟨by rw [h31]; tauto, by rw [h32]; tauto⟩
  have hb := greedy_bound K hK nodeIds
    (Merge.sortDesc (edges.filter (Merge.keepEdge metaMin))) (fun _ => 0) hends
  have hzero : (nodeIds.map (fun v => min ((fun _ => 0 : String → Nat) v) K.toNat)).sum = 0 := by
    induction nodeIds with
    | nil => simp
    | cons y ys ihy => simp
  rw [hzero] at hb
  omega

/-- C8 witness: the three-edge star of the C3 scenario (K = 1, four
nodes) keeps at most 1 × 4 edges. -/
theorem c8_topk_bounds_kept_edges_witness :
    (Merge.prune none (some 1)
        [{ source := "nnnn", target := "aaaa", evidence := ["ai"], reasons := [],
           similarity := some 90, score := none, tags_overlap := [], project_overlap := [],
           directed := false, direction_info := "undirected", dashes := true, arrow := none },
         { source := "nnnn", target := "bbbb", evidence := ["ai"], reasons := [],
           similarity := some 80, score := none, tags_overlap := [], project_overlap := [],
           directed := false, direction_info := "undirected", dashes := true, arrow := none },
         { source := "nnnn", target := "cccc", evidence := ["ai"], reasons := [],
           similarity := some 70, score := none, tags_overlap := [], project_overlap := [],
           directed := false, direction_info := "undirected", dashes := true,
           arrow := none }]).length ≤
      (1 : Int).toNat * (["nnnn", "aaaa", "bbbb", "cccc"] : List String).length :=
  c8_topk_bounds_kept_edges none 1 ["nnnn", "aaaa", "bbbb", "cccc"] _
    (by decide) (by decide)

end DigitalBrain
